import Mathlib

/-!
Shallow embedding of the device-lifecycle reconciliation logic of the
DATA-Visualisation repository, together with theorems settling the frozen
claims about its specification.

Conventions of the embedding:
* pandas tables are lists of Lean structures, one structure field per column;
* a nullable cell (`NaN` / `NaT`) is an `Option`;
* calendar dates that only take part in day arithmetic are integers
  (days since an arbitrary epoch), mirroring `.dt.days`;
* calendar dates that take part in textual parsing and rendering are a
  `PyDate` structure with explicit validity conditions;
* fractional quantities produced by `/ 30.44` live in `ℚ`;
* Python functions that can only raise inside a `try ... except` that the
  source catches are total functions into `Option`.
-/

/-! ## Character and digit helpers (model of the Python string primitives) -/

/-- Value of an ASCII digit character, `int(c)` in the source (`'0'` ↦ 0). -/
def charVal (c : Char) : Nat := c.toNat - 48

/-- ASCII digit character of a single decimal digit, as produced by
Python string formatting. -/
def digitChar (d : Nat) : Char :=
  match d with
  | 0 => '0' | 1 => '1' | 2 => '2' | 3 => '3' | 4 => '4'
  | 5 => '5' | 6 => '6' | 7 => '7' | 8 => '8' | _ => '9'

/-- Superscript decimal digit glyphs handled by the source scripts. -/
def superscriptDigits : List Char := ['¹', '²', '³', '⁴', '⁵', '⁶', '⁷', '⁸', '⁹', '⁰']

/-- Subscript decimal digit glyphs handled by `lire2.py`. -/
def subscriptDigits : List Char := ['₁', '₂', '₃', '₄', '₅', '₆', '₇', '₈', '₉', '₀']

/-- Model of Python `str.isdigit` on the character repertoire the embedding
covers: ASCII digits plus the decorative superscript and subscript digit
glyphs, all of which satisfy `isdigit` in Python. Full Python `isdigit` also
accepts further digit glyphs outside this repertoire (circled digits such as
`①`); on those `int(c)` raises even in `lire2.py`, whose substitution table
does not cover them — the same error path that [pyIntChar?] below exhibits
inside the repertoire for `lire1.py`. -/
def pyIsDigit (c : Char) : Bool :=
  c.isDigit || superscriptDigits.contains c || subscriptDigits.contains c

/-- Model of Python `str.strip` (drop whitespace on both ends). -/
def pyStrip (cs : List Char) : List Char :=
  ((cs.dropWhile Char.isWhitespace).reverse.dropWhile Char.isWhitespace).reverse

/-- Model of Python `int(c)` on a single character: `int` accepts only
decimal-category digits — within the modelled repertoire, the ASCII digits —
and raises `ValueError` on every other character, decorative digit glyphs
included (they satisfy `isdigit` but are not decimal-category); the raise is
`none`. -/
def pyIntChar? (c : Char) : Option Nat :=
  if c.isDigit then some (charVal c) else none

/-- Model of the comprehension `[int(c) for c in cleaned_str]`, which raises
(`none`) as soon as one conversion fails. -/
def intsOfChars : List Char → Option (List Nat)
  | [] => some []
  | c :: t =>
    match pyIntChar? c, intsOfChars t with
    | some v, some vs => some (v :: vs)
    | _, _ => none

/-! ## Serial-number validation, `valider_numero_serie` of `lire2.py`

The variant in `lire1.py` differs in one way that matters: its glyph table
maps only the superscript digits, so subscript digits survive its cleaning
step, pass the `isdigit` check, and then make `int(c)` raise — that variant
is modelled separately below with an `Option` result (`none` = uncaught
`ValueError`). In `lire2.py` both glyph families are substituted away, so on
the modelled repertoire every character passing its `isdigit` check is an
ASCII digit and the `int` conversions cannot fail. -/

namespace Lire2

/-- Glyph substitution table of `valider_numero_serie` (`special_chars`): every
decorative superscript or subscript digit is replaced by its ASCII digit;
every other character is kept (`special_chars.get(c, c)`). -/
def specialChar (c : Char) : Char :=
  match c with
  | '¹' => '1' | '²' => '2' | '³' => '3' | '⁴' => '4' | '⁵' => '5'
  | '⁶' => '6' | '⁷' => '7' | '⁸' => '8' | '⁹' => '9' | '⁰' => '0'
  | '₁' => '1' | '₂' => '2' | '₃' => '3' | '₄' => '4' | '₅' => '5'
  | '₆' => '6' | '₇' => '7' | '₈' => '8' | '₉' => '9' | '₀' => '0'
  | c => c

/-- Normalized form of a serial cell: `str.strip` followed by the glyph
substitution (`cleaned_str` in the source). -/
def cleanSerial (s : String) : List Char :=
  (pyStrip s.toList).map specialChar

/-- Digit values of the cleaned string, `chiffres = [int(c) for c in cleaned_str]`. -/
def chiffres (cs : List Char) : List Nat := cs.map charVal

/-- Month code of a cleaned serial, `chiffres[0]*10 + chiffres[1]`. -/
def deuxPremiers (cs : List Char) : Nat :=
  charVal (cs.headD '0') * 10 + charVal ((cs.drop 1).headD '0')

/-- Year code of a cleaned serial, `chiffres[2]*10 + chiffres[3]`. -/
def troisQuatre (cs : List Char) : Nat :=
  charVal ((cs.drop 2).headD '0') * 10 + charVal ((cs.drop 3).headD '0')

/-- Embedding of `valider_numero_serie` from `lire2.py` (lines 23–53): strip,
substitute decorative glyphs, then require exactly 7 digit characters, first
two digits ≤ 12, digits 3–4 within 17–26; each violation yields its specific
tagged result string. -/
def valider_numero_serie (s : String) : String :=
  let cleaned := cleanSerial s
  if cleaned.length ≠ 7 || !(cleaned.all pyIsDigit) then
    "Invalide (longueur)"
  else if deuxPremiers cleaned > 12 then
    "Invalide (2 premiers > 12)"
  else if troisQuatre cleaned < 17 || troisQuatre cleaned > 26 then
    "Invalide (chiffres 3-4 hors 17-26)"
  else
    "Valide"

/-- Cell values a serial column can hold before `str(num_serie)` is applied:
a string, a missing value (pandas `NaN`), or a number. -/
inductive Cell where
  | str (v : String)
  | nan
  | num (n : Int)
deriving DecidableEq, Repr

/-- Python stringification `str(num_serie)` of a raw cell: a missing pandas
cell is `float('nan')`, whose `str` is `"nan"`. -/
def pyStr (c : Cell) : String :=
  match c with
  | .str v => v
  | .nan => "nan"
  | .num n => toString n

/-- The validator as applied to a raw cell of the serial column
(`df['no de série'].apply(valider_numero_serie)`). -/
def validerCell (c : Cell) : String :=
  valider_numero_serie (pyStr c)

end Lire2

namespace Lire1

/-- Glyph substitution table of `valider_numero_serie` in `lire1.py` (lines
30–33): only the superscript digits are mapped; subscript digits are left
untouched. -/
def specialChar (c : Char) : Char :=
  match c with
  | '¹' => '1' | '²' => '2' | '³' => '3' | '⁴' => '4' | '⁵' => '5'
  | '⁶' => '6' | '⁷' => '7' | '⁸' => '8' | '⁹' => '9' | '⁰' => '0'
  | c => c

/-- Cleaned form of a serial cell in `lire1.py`. -/
def cleanSerial (s : String) : List Char :=
  (pyStrip s.toList).map specialChar

/-- Embedding of `valider_numero_serie` from `lire1.py` (lines 25–49) as it
actually runs: after the length and `isdigit` checks succeed, the
comprehension `[int(c) for c in cleaned_str]` executes with no surrounding
`try`, so a character that satisfies `isdigit` but is not a decimal digit
(a subscript glyph, unmapped here) raises an uncaught `ValueError` — the
`none` result. -/
def valider_numero_serie (s : String) : Option String :=
  let cleaned := cleanSerial s
  if cleaned.length ≠ 7 || !(cleaned.all pyIsDigit) then
    some "Invalide (longueur)"
  else
    match intsOfChars cleaned with
    | none => none
    | some chiffres =>
      let deuxPremiers := chiffres.headD 0 * 10 + (chiffres.drop 1).headD 0
      let troisQuatre := (chiffres.drop 2).headD 0 * 10 + (chiffres.drop 3).headD 0
      if deuxPremiers > 12 then some "Invalide (2 premiers > 12)"
      else if troisQuatre < 17 || troisQuatre > 26 then
        some "Invalide (chiffres 3-4 hors 17-26)"
      else some "Valide"

end Lire1

/-! ## Deduplication, Section 4 of `lire2.py` / `lire1.py`

`df.sort_values(by='no de série', ascending=True)` followed by
`df.drop_duplicates(subset=['modèle', 'no de série'], keep='first')`.
The sort is modelled as an insertion sort on the serial column that keeps
rows comparing equal on the serial in their input order, which is the tie
order numpy's sort produces on the instances evaluated here; the proved
statements do not depend on the tie order except where input-order
dependence is itself the point. -/

namespace Dedup

/-- Row of the preprocessing table: the two key columns of the duplicate
check plus an opaque remainder of the row (`payload`) standing for all other
columns, which is what distinguishes two duplicate rows. -/
structure Row where
  modele : String
  serie : String
  payload : Nat
deriving DecidableEq, Repr

/-- Duplicate-detection key, the column subset `['modèle', 'no de série']`. -/
def dedupKey (r : Row) : String × String := (r.modele, r.serie)

/-- Code-point lexicographic strict order on character lists, the comparison
pandas applies when sorting a string column. -/
def charListLt : List Char → List Char → Bool
  | [], [] => false
  | [], _ :: _ => true
  | _ :: _, [] => false
  | a :: as, b :: bs =>
    if a.toNat < b.toNat then true
    else if b.toNat < a.toNat then false
    else charListLt as bs

/-- Strict order on the serial column values. -/
def serialLt (a b : String) : Bool := charListLt a.toList b.toList

/-- Insertion step of the sort on the serial column: a row is placed before
the first row whose serial is not smaller. -/
def sortedInsert (r : Row) : List Row → List Row
  | [] => [r]
  | b :: l => if serialLt b.serie r.serie then b :: sortedInsert r l else r :: b :: l

/-- Embedding of `df.sort_values(by='no de série', ascending=True)`. -/
def sortBySerie : List Row → List Row
  | [] => []
  | a :: l => sortedInsert a (sortBySerie l)

/-- Embedding of `drop_duplicates(subset, keep='first')`: scan the rows in
order, keeping a row exactly when its key has not been seen yet. -/
def dropDupAux (seen : List (String × String)) : List Row → List Row
  | [] => []
  | r :: l =>
    if dedupKey r ∈ seen then dropDupAux seen l
    else r :: dropDupAux (dedupKey r :: seen) l

/-- Embedding of `df.drop_duplicates(subset=['modèle','no de série'], keep='first')`. -/
def drop_duplicates (l : List Row) : List Row := dropDupAux [] l

/-- Section 4 of `lire2.py`: sort by serial, then drop duplicate keys keeping
the first occurrence. -/
def deduplicate (l : List Row) : List Row := drop_duplicates (sortBySerie l)

/-- Removed-row count reported by `lire2.py`, `len(df) - len(df_clean)`. -/
def removedCount (l : List Row) : Nat := l.length - (deduplicate l).length

/-- Embedding of `df.duplicated(subset=['modèle','no de série']).sum()` as
reported by `lire1.py` before deduplicating: the number of rows whose key
already occurred earlier in the (unsorted) table. -/
def duplicatedCountAux (seen : List (String × String)) : List Row → Nat
  | [] => 0
  | r :: l =>
    (if dedupKey r ∈ seen then 1 else 0) + duplicatedCountAux (dedupKey r :: seen) l

/-- Reported duplicate count of `lire1.py`. -/
def duplicatedCount (l : List Row) : Nat := duplicatedCountAux [] l

end Dedup

/-! ## Record merging, `process_data` of `QQQQ.py`

Dates and serials are taken after the `pd.to_datetime(..., errors='coerce')`
cleaning step, so a date column is `Option Int` (days since an arbitrary
epoch). `datetime.now()` is the injected `now` parameter. -/

namespace QQQQ

/-- Row of the installations sheet (`Feuil1`). -/
structure InstallRow where
  serie : String
  modele : String
  filiale : String
  dateInstallation : Option Int
  derniereConnexion : Option Int
deriving DecidableEq, Repr

/-- Row of the incidents sheet (`Feuil2`). -/
structure IncidentRow where
  serie : String
  incident : Option String
  dateIncident : Option Int
deriving DecidableEq, Repr

/-- Row of the returns sheet (`Feuil3`). -/
structure RetourRow where
  serie : String
  rma : Option String
  dateRetour : Option Int
deriving DecidableEq, Repr

/-- Per-serial incident summary produced by
`df_incidents.groupby('no de série').agg(...)`. -/
structure IncidentAgg where
  serie : String
  nombreIncidents : Nat
  dernierIncident : Option Int
deriving DecidableEq, Repr

/-- Per-serial return summary produced by
`df_retours.groupby('no de série').agg(...)`. -/
structure RetourAgg where
  serie : String
  nombreRetours : Nat
  dernierRetour : Option Int
  rma : Option String
deriving DecidableEq, Repr

/-- Maximum of two nullable dates, skipping nulls as the pandas `max`
aggregation does. -/
def optMax (a b : Option Int) : Option Int :=
  match a, b with
  | none, b => b
  | a, none => a
  | some x, some y => some (max x y)

/-- The `max` aggregation over the date column of a group. -/
def maxDate (dates : List (Option Int)) : Option Int :=
  dates.foldr optMax none

/-- The `last` aggregation over a column of a group: the last non-null value. -/
def lastValue (vals : List (Option String)) : Option String :=
  vals.foldl (fun acc v => match v with | none => acc | some s => some s) none

/-- Embedding of `incidents_agg`: one summary row per distinct serial of the
incident table; `nombre_incidents` is the pandas `count` aggregation of the
`incident` column, which counts its non-null values. -/
def incidents_agg (incs : List IncidentRow) : List IncidentAgg :=
  ((incs.map (·.serie)).dedup).map fun k =>
    let grp := incs.filter (·.serie = k)
    { serie := k
      nombreIncidents := (grp.filter (fun r => r.incident.isSome)).length
      dernierIncident := maxDate (grp.map (·.dateIncident)) }

/-- Embedding of `retours_agg`. -/
def retours_agg (rets : List RetourRow) : List RetourAgg :=
  ((rets.map (·.serie)).dedup).map fun k =>
    let grp := rets.filter (·.serie = k)
    { serie := k
      nombreRetours := (grp.filter (fun r => r.rma.isSome)).length
      dernierRetour := maxDate (grp.map (·.dateRetour))
      rma := lastValue (grp.map (·.rma)) }

/-- Result of the first `merge(..., how='left')`: installation columns plus
the incident-summary columns, which are null for unmatched serials. -/
structure Merged1 where
  inst : InstallRow
  nombreIncidents : Option Nat
  dernierIncident : Option Int
deriving DecidableEq, Repr

/-- Result of the second `merge(..., how='left')`. -/
structure Merged2 where
  inst : InstallRow
  nombreIncidents : Option Nat
  dernierIncident : Option Int
  nombreRetours : Option Nat
  dernierRetour : Option Int
  rma : Option String
deriving DecidableEq, Repr

/-- Rows a single installation row contributes to the first merge: one row
per matching summary row, or a single null-padded row when none matches. -/
def blockInc (agg : List IncidentAgg) (r : InstallRow) : List Merged1 :=
  match agg.filter (·.serie = r.serie) with
  | [] => [⟨r, none, none⟩]
  | ms => ms.map fun a => ⟨r, some a.nombreIncidents, a.dernierIncident⟩

/-- Embedding of `df_install.merge(incidents_agg, on='no de série', how='left')`:
each left row pairs with every matching right row, or survives alone with null
summary columns when no right row matches. -/
def leftMergeInc : List InstallRow → List IncidentAgg → List Merged1
  | [], _ => []
  | r :: t, agg => blockInc agg r ++ leftMergeInc t agg

/-- Rows a single first-merge row contributes to the second merge. -/
def blockRet (agg : List RetourAgg) (m : Merged1) : List Merged2 :=
  match agg.filter (·.serie = m.inst.serie) with
  | [] => [⟨m.inst, m.nombreIncidents, m.dernierIncident, none, none, none⟩]
  | ms => ms.map fun a =>
      ⟨m.inst, m.nombreIncidents, m.dernierIncident,
       some a.nombreRetours, a.dernierRetour, a.rma⟩

/-- Embedding of the second left merge, onto the return summaries. -/
def leftMergeRet : List Merged1 → List RetourAgg → List Merged2
  | [], _ => []
  | m :: t, agg => blockRet agg m ++ leftMergeRet t agg

/-- Final merged record after the `fillna(0)` of both count columns and the
derived columns of lines 50–54. -/
structure FinalRow where
  inst : InstallRow
  nombreIncidents : Nat
  dernierIncident : Option Int
  nombreRetours : Nat
  dernierRetour : Option Int
  rma : Option String
  dureeDepuisInstallation : Option Int
  joursInactivite : Option Int
  aIncidentSansRetour : Bool
deriving DecidableEq, Repr

/-- Derived columns of `process_data`: `fillna(0)` on the two counts, the two
age columns from the injected clock, and the incident-without-return flag. -/
def finalize (now : Int) (m : Merged2) : FinalRow :=
  let nbI := m.nombreIncidents.getD 0
  let nbR := m.nombreRetours.getD 0
  { inst := m.inst
    nombreIncidents := nbI
    dernierIncident := m.dernierIncident
    nombreRetours := nbR
    dernierRetour := m.dernierRetour
    rma := m.rma
    dureeDepuisInstallation := m.inst.dateInstallation.map (now - ·)
    joursInactivite := m.inst.derniereConnexion.map (now - ·)
    aIncidentSansRetour := decide (nbI > 0) && decide (nbR = 0) }

/-- Embedding of `process_data` from `QQQQ.py` (lines 28–54): aggregate the
incident and return tables per serial, left-join both summaries onto the
installation table, fill the missing counts with zero and derive the flag and
age columns. -/
def process_data (now : Int) (install : List InstallRow)
    (incs : List IncidentRow) (rets : List RetourRow) : List FinalRow :=
  (leftMergeRet (leftMergeInc install (incidents_agg incs)) (retours_agg rets)).map
    (finalize now)

end QQQQ

/-! ## Record merging, `process_data` of `api.py`

This variant left-joins the raw incident and return tables, without any
pre-aggregation, and then derives `ttf` as incident date minus installation
date per resulting row. -/

namespace Api

/-- Installation row under the injected column mapping. -/
structure InstRow where
  serie : String
  modele : String
  dateInst : Option Int
deriving DecidableEq, Repr

/-- Incident row under the injected column mapping. -/
structure IncRow where
  serie : String
  incident : String
  dateInc : Option Int
deriving DecidableEq, Repr

/-- Return (RMA) row under the injected column mapping. -/
structure RmaRow where
  serie : String
  rma : String
  dateRma : Option Int
deriving DecidableEq, Repr

/-- Output row of `process_data` of `api.py`. -/
structure MergedRow where
  inst : InstRow
  inc : Option IncRow
  rma : Option RmaRow
  ttf : Option Int
deriving DecidableEq, Repr

/-- First raw left merge, `pd.merge(df_inst, df_inc, ..., how='left')`. -/
def leftMergeInc : List InstRow → List IncRow → List (InstRow × Option IncRow)
  | [], _ => []
  | r :: t, incs =>
    (match incs.filter (·.serie = r.serie) with
     | [] => [(r, none)]
     | ms => ms.map fun i => (r, some i))
    ++ leftMergeInc t incs

/-- Second raw left merge, onto the raw RMA table. -/
def leftMergeRma : List (InstRow × Option IncRow) → List RmaRow →
    List (InstRow × Option IncRow × Option RmaRow)
  | [], _ => []
  | p :: t, rmas =>
    (match rmas.filter (·.serie = p.1.serie) with
     | [] => [(p.1, p.2, none)]
     | ms => ms.map fun m => (p.1, p.2, some m))
    ++ leftMergeRma t rmas

/-- Embedding of `process_data` from `api.py` (lines 34–67): two raw left
merges followed by the per-row `ttf` column. -/
def process_data (inst : List InstRow) (incs : List IncRow) (rmas : List RmaRow) :
    List MergedRow :=
  (leftMergeRma (leftMergeInc inst incs) rmas).map fun p =>
    { inst := p.1
      inc := p.2.1
      rma := p.2.2
      ttf :=
        match (p.2.1.bind (·.dateInc)), p.1.dateInst with
        | some di, some d0 => some (di - d0)
        | _, _ => none }

end Api

example :
    (QQQQ.process_data 0
      [⟨"A", "M", "F", some 0, none⟩]
      [⟨"A", some "i1", some 5⟩, ⟨"A", some "i2", some 6⟩]
      []).length = 1 := by decide

example :
    (Api.process_data
      [⟨"A", "M", some 0⟩]
      [⟨"A", "i1", some 5⟩, ⟨"A", "i2", some 6⟩]
      []).length = 2 := by decide

example :
    QQQQ.process_data 10
      [⟨"A", "M", "F", some 0, none⟩]
      [⟨"A", some "i1", some 5⟩, ⟨"A", some "i2", some 6⟩]
      []
    = [⟨⟨"A", "M", "F", some 0, none⟩, 2, some 6, 0, none, none, some 10, none, true⟩] := by
  decide

/-! ## Time-to-failure metrics, `clean_and_prepare_data` of `vf1.py` and
`prepare_data` of `data.py`

Both scripts consume the same single-sheet device table. Date columns are
taken after `pd.to_datetime(..., errors='coerce')`, hence `Option Int`
(days since an arbitrary epoch); `/ 30.44` month conversions live in `ℚ`. -/

/-- Device row of the single-sheet dashboards (`vf1.py`, `data.py`). -/
structure DeviceRow where
  modele : String
  sn : String
  fabricationDate : Option Int
  installationDate : Option Int
  incidentDate : Option Int
  lastConnexion : Option Int
deriving DecidableEq, Repr

/-- The average month length `30.44` used by both scripts. -/
def moisEnJours : ℚ := 3044 / 100

/-- Day difference between two nullable dates divided by 30.44, the
elementwise value of `(dfA - dfB).dt.days / 30.44` (null when either side
is null). -/
def diffMonths (a b : Option Int) : Option ℚ :=
  match a, b with
  | some x, some y => some (((x - y : Int) : ℚ) / moisEnJours)
  | _, _ => none

namespace Vf1

/-- The `ttf_inst` column of `vf1.py`, incident date minus installation date
in months. -/
def ttfInst (r : DeviceRow) : Option ℚ := diffMonths r.incidentDate r.installationDate

/-- The `ttf_fab` column of `vf1.py`, incident date minus fabrication date
in months. -/
def ttfFab (r : DeviceRow) : Option ℚ := diffMonths r.incidentDate r.fabricationDate

/-- Embedding of the `Time_to_Failure` column of `clean_and_prepare_data`
(`vf1.py` lines 78–87):
`np.where(incidentDate.notna(), np.where(ttf_inst > 0, ttf_inst, ttf_fab), nan)`.
A null `ttf_inst` compares as not greater than zero (`NaN > 0` is false), so
the fabrication-based value is taken in that case as well. -/
def timeToFailure (r : DeviceRow) : Option ℚ :=
  if r.incidentDate.isSome then
    match ttfInst r with
    | some v => if v > 0 then some v else ttfFab r
    | none => ttfFab r
  else none

/-- Prepared row of `clean_and_prepare_data`: the base columns plus the
derived metric columns. -/
structure Prepared where
  base : DeviceRow
  timeToFailure : Option ℚ
  ageInstallation : Option ℚ
  ageFabrication : Option ℚ
deriving DecidableEq, Repr

/-- Embedding of `clean_and_prepare_data` (`vf1.py`), with `datetime.now()`
injected as `today`. -/
def clean_and_prepare_data (today : Int) (rows : List DeviceRow) : List Prepared :=
  rows.map fun r =>
    { base := r
      timeToFailure := timeToFailure r
      ageInstallation := diffMonths (some today) r.installationDate
      ageFabrication := diffMonths (some today) r.fabricationDate }

end Vf1

namespace DataPy

/-- The `TTF_installation` column of `prepare_data` (`data.py`). -/
def ttfInstallation (r : DeviceRow) : Option ℚ := diffMonths r.incidentDate r.installationDate

/-- The `TTF_fabrication` column of `prepare_data` (`data.py`). -/
def ttfFabrication (r : DeviceRow) : Option ℚ := diffMonths r.incidentDate r.fabricationDate

/-- Embedding of the `Time_to_Failure_months` column of `prepare_data`
(`data.py` lines 159–162):
`df[['TTF_installation','TTF_fabrication']].max(axis=1)`, where the pandas
row maximum skips nulls and is null only when both entries are null. -/
def timeToFailureMonths (r : DeviceRow) : Option ℚ :=
  match ttfInstallation r, ttfFabrication r with
  | none, none => none
  | some a, none => some a
  | none, some b => some b
  | some a, some b => some (max a b)

end DataPy

example :
    Vf1.timeToFailure ⟨"M", "S", none, none, some 100, none⟩ = none := by decide
example :
    DataPy.timeToFailureMonths ⟨"M", "S", none, none, some 100, none⟩ = none := by decide
example :
    Vf1.timeToFailure ⟨"M", "S", some 0, some 100, some 50, none⟩
      = some (1250 / 761) := by
  norm_num [Vf1.timeToFailure, Vf1.ttfInst, Vf1.ttfFab, diffMonths, moisEnJours]
example :
    DataPy.timeToFailureMonths ⟨"M", "S", some 0, some 100, some 50, none⟩
      = some (1250 / 761) := by
  norm_num [DataPy.timeToFailureMonths, DataPy.ttfInstallation, DataPy.ttfFabrication,
    diffMonths, moisEnJours]

/-! ## Calendar dates, textual parsing and rendering

Model of the `datetime.strptime` / `strftime` pairs the scripts use, on
inputs of the canonical zero-padded widths the data carries. -/

/-- Calendar date as `datetime.date` holds it. -/
structure PyDate where
  year : Nat
  month : Nat
  day : Nat
deriving DecidableEq, Repr

/-- Gregorian leap-year rule. -/
def isLeap (y : Nat) : Bool :=
  (y % 4 == 0 && y % 100 != 0) || y % 400 == 0

/-- Number of days of a month. -/
def daysInMonth (y m : Nat) : Nat :=
  if m = 2 then (if isLeap y then 29 else 28)
  else if m = 4 ∨ m = 6 ∨ m = 9 ∨ m = 11 then 30
  else 31

/-- Validity condition `datetime` enforces on a date. -/
def validDate (d : PyDate) : Bool :=
  decide (1 ≤ d.year) && decide (d.year ≤ 9999) &&
  decide (1 ≤ d.month) && decide (d.month ≤ 12) &&
  decide (1 ≤ d.day) && decide (d.day ≤ daysInMonth d.year d.month)

/-- Date constructor that rejects out-of-range components the way
`datetime.strptime` does. -/
def mkDate (y m d : Nat) : Option PyDate :=
  if validDate ⟨y, m, d⟩ then some ⟨y, m, d⟩ else none

/-- Timestamp as `datetime.datetime` holds it. -/
structure PyDateTime where
  date : PyDate
  hour : Nat
  minute : Nat
  second : Nat
deriving DecidableEq, Repr

/-- Validity condition on a timestamp. -/
def validDateTime (t : PyDateTime) : Bool :=
  validDate t.date && decide (t.hour ≤ 23) && decide (t.minute ≤ 59) && decide (t.second ≤ 59)

/-- Numeric value of a digit string. -/
def parseNumAux (cs : List Char) : Nat :=
  cs.foldl (fun a c => a * 10 + charVal c) 0

/-- Model of a `strptime` numeric field of at most `maxLen` digits: a
non-empty, all-ASCII-digit string of bounded length (also the behaviour of
`int(...)` on such strings, raising — hence `none` — otherwise). -/
def parseNum (maxLen : Nat) (cs : List Char) : Option Nat :=
  if cs ≠ [] ∧ cs.length ≤ maxLen ∧ cs.all Char.isDigit then
    some (parseNumAux cs)
  else none

/-- Split a character list at every occurrence of a separator. -/
def splitOnChar (sep : Char) : List Char → List (List Char)
  | [] => [[]]
  | c :: t =>
    if c = sep then [] :: splitOnChar sep t
    else
      match splitOnChar sep t with
      | h :: r => (c :: h) :: r
      | [] => [[c]]

/-- Two-digit zero-padded rendering (`%d`, `%m`, `%H`, `%M`, `%S`). -/
def pad2 (n : Nat) : List Char := [digitChar (n / 10), digitChar (n % 10)]

/-- Four-digit zero-padded rendering (`%Y`). -/
def pad4 (n : Nat) : List Char :=
  [digitChar (n / 1000), digitChar (n / 100 % 10), digitChar (n / 10 % 10), digitChar (n % 10)]

/-- Rendering of `strftime('%d/%m/%Y')`. -/
def renderDmy (d : PyDate) : String :=
  ⟨pad2 d.day ++ '/' :: (pad2 d.month ++ '/' :: pad4 d.year)⟩

/-- Rendering of `strftime('%Y-%m-%d %H:%M:%S')`, the canonical timestamp
form the preprocessing scripts receive. -/
def renderYmdHms (t : PyDateTime) : String :=
  ⟨(pad4 t.date.year ++ '-' :: (pad2 t.date.month ++ '-' :: pad2 t.date.day)) ++
   ' ' :: (pad2 t.hour ++ ':' :: (pad2 t.minute ++ ':' :: pad2 t.second))⟩

/-- Field order of a three-component date pattern. -/
inductive FieldOrder where
  | ymd
  | dmy
  | mdy
deriving DecidableEq, Repr

/-- A three-component date pattern: a field order and a separator, covering
every pattern in the candidate list of `App3.py`. -/
structure DatePattern where
  order : FieldOrder
  sep : Char
deriving DecidableEq, Repr

/-- Assemble a date from the three split fields according to the field order;
year fields take up to four digits, day and month fields up to two. -/
def dateOfFields (o : FieldOrder) (a b c : List Char) : Option PyDate :=
  match o with
  | .ymd => do
    let y ← parseNum 4 a
    let m ← parseNum 2 b
    let d ← parseNum 2 c
    mkDate y m d
  | .dmy => do
    let d ← parseNum 2 a
    let m ← parseNum 2 b
    let y ← parseNum 4 c
    mkDate y m d
  | .mdy => do
    let m ← parseNum 2 a
    let d ← parseNum 2 b
    let y ← parseNum 4 c
    mkDate y m d

/-- Model of `pd.to_datetime(s, format=p, errors='raise')` on a single cell:
split on the separator of the pattern, read the three numeric fields,
validate the calendar date. -/
def strptimeDate (p : DatePattern) (s : String) : Option PyDate :=
  match splitOnChar p.sep s.toList with
  | [a, b, c] => dateOfFields p.order a b c
  | _ => none

/-- The ordered candidate pattern list `date_patterns` of `App3.py` (lines
18–20), duplicate entry included:
`['%Y-%m-%d', '%d/%m/%Y', '%m/%d/%Y', '%Y/%m/%d', '%d-%m-%Y', '%m-%d-%Y',
'%Y-%m-%d', '%d.%m.%Y', '%m.%d.%Y', '%Y.%m.%d']`. -/
def datePatterns : List DatePattern :=
  [⟨.ymd, '-'⟩, ⟨.dmy, '/'⟩, ⟨.mdy, '/'⟩, ⟨.ymd, '/'⟩, ⟨.dmy, '-'⟩,
   ⟨.mdy, '-'⟩, ⟨.ymd, '-'⟩, ⟨.dmy, '.'⟩, ⟨.mdy, '.'⟩, ⟨.ymd, '.'⟩]

/-- First pattern of an ordered candidate list that parses the cell, if any. -/
def tryPatterns (ps : List DatePattern) (s : String) : Option PyDate :=
  match ps with
  | [] => none
  | p :: rest =>
    match strptimeDate p s with
    | some d => some d
    | none => tryPatterns rest s

/-! ## `DateNormalizer`: the per-column date conversion of `prepare_data`
(`data.py` lines 148–154) with its invalid-value counter -/

/-- Raw cell of a date column: an already-typed date, a textual value, or a
missing value. -/
inductive DateCell where
  | date (d : PyDate)
  | str (s : String)
  | missing
deriving DecidableEq, Repr

/-- Per-cell model of `pd.to_datetime(..., errors='coerce')`: an
already-typed date is accepted as is, a missing cell stays null, and a
textual cell is parsed with the repository's candidate pattern list
(`App3.py`), coercing to null instead of raising when every pattern fails. -/
def toDatetimeCell (c : DateCell) : Option PyDate :=
  match c with
  | .date d => some d
  | .missing => none
  | .str s => tryPatterns datePatterns s

/-- Column conversion `df[col] = pd.to_datetime(df[col], errors='coerce')`. -/
def convertDateColumn (col : List DateCell) : List (Option PyDate) :=
  col.map toDatetimeCell

/-- The per-column counter `invalid_dates = df[col].isna().sum()` taken after
the conversion (`data.py` line 152). -/
def invalid_dates (col : List DateCell) : Nat :=
  (convertDateColumn col).countP (·.isNone)

/-- Proposition that a raw cell defeats every candidate pattern: it is not an
already-typed date and no pattern (nor the null value of a missing cell)
yields a date. -/
def FailsAllPatterns (c : DateCell) : Prop :=
  match c with
  | .date _ => False
  | .missing => True
  | .str s => ∀ p ∈ datePatterns, strptimeDate p s = none

instance : DecidablePred FailsAllPatterns := fun c => by
  cases c <;> simp only [FailsAllPatterns] <;> infer_instance

/-! ## `convert_date_format` of `lire2.py` -/

namespace Lire2

/-- Parse an `HH:MM:SS` field triple. -/
def parseHms (cs : List Char) : Option (Nat × Nat × Nat) :=
  match splitOnChar ':' cs with
  | [h, m, s] => do
    let hv ← parseNum 2 h
    let mv ← parseNum 2 m
    let sv ← parseNum 2 s
    if hv ≤ 23 ∧ mv ≤ 59 ∧ sv ≤ 59 then some (hv, mv, sv) else none
  | _ => none

/-- Model of `datetime.strptime(s, '%Y-%m-%d %H:%M:%S')` on canonical-width
input. -/
def strptimeYmdHms (s : String) : Option PyDateTime :=
  match splitOnChar ' ' s.toList with
  | [dpart, tpart] =>
    match splitOnChar '-' dpart with
    | [y, m, d] => do
      let yv ← parseNum 4 y
      let mv ← parseNum 2 m
      let dv ← parseNum 2 d
      let date ← mkDate yv mv dv
      let hms ← parseHms tpart
      some ⟨date, hms.1, hms.2.1, hms.2.2⟩
    | _ => none
  | _ => none

/-- Model of `datetime.strptime(s, '%Y-%m-%d %H:%M:%S.%f')` on
canonical-width input: as above with a mandatory fractional field of one to
six digits. -/
def strptimeYmdHmsF (s : String) : Option PyDateTime :=
  match splitOnChar ' ' s.toList with
  | [dpart, tpart] =>
    match splitOnChar '.' tpart with
    | [hms, frac] =>
      match splitOnChar '-' dpart with
      | [y, m, d] => do
        let yv ← parseNum 4 y
        let mv ← parseNum 2 m
        let dv ← parseNum 2 d
        let date ← mkDate yv mv dv
        let t ← parseHms hms
        let _ ← parseNum 6 frac
        some ⟨date, t.1, t.2.1, t.2.2⟩
      | _ => none
    | _ => none
  | _ => none

/-- Embedding of `convert_date_format` from `lire2.py` (lines 10–20): try the
fractional timestamp format, then the plain one, and on success render the
date part as `'%d/%m/%Y'`; `np.nan` on double failure is `none`. -/
def convert_date_format (s : String) : Option String :=
  match strptimeYmdHmsF s with
  | some t => some (renderDmy t.date)
  | none =>
    match strptimeYmdHms s with
    | some t => some (renderDmy t.date)
    | none => none

end Lire2

/-! ## `extract_manufacture_date` of `api.py` and the serial split of
`réclamation.py` -/

namespace Api

/-- Embedding of `extract_manufacture_date` from `api.py` (lines 24–32). The
source computes `year_part = int(str(serial)[:2]) + 2000` and
`week_part = int(str(serial)[2:4])`, then evaluates
`datetime.strptime(f"{week_part} {year_part}", "%U %Y")`. CPython validates
`%U` (0–53) but, with no weekday directive present, never uses it: the parsed
timestamp stays at the default January 1 of `year_part`. The final
`strftime('%d/%m/%Y')` renders that day; any failure is caught by the bare
`except` and becomes `None`. -/
def extract_manufacture_date (serial : String) : Option String :=
  let cs := serial.toList
  match parseNum 2 (cs.take 2), parseNum 2 ((cs.drop 2).take 2) with
  | some y2, some w =>
    if w ≤ 53 then some (renderDmy ⟨2000 + y2, 1, 1⟩) else none
  | _, _ => none

end Api

namespace Reclamation

/-- The month column extracted by `réclamation.py` line 50,
`df['Numéro de série'].str[:2]`. -/
def mois (serial : String) : String := ⟨serial.toList.take 2⟩

/-- The year column extracted by `réclamation.py` line 51,
`df['Numéro de série'].str[2:4]`. -/
def annee (serial : String) : String := ⟨(serial.toList.drop 2).take 2⟩

end Reclamation

example : Api.extract_manufacture_date "0118001" = some "01/01/2001" := by decide
example : Reclamation.mois "0118001" = "01" ∧ Reclamation.annee "0118001" = "18" := by decide
example : Lire2.convert_date_format "2018-02-01 00:00:00" = some "01/02/2018" := by decide
example : Lire2.convert_date_format "2018-02-01 12:30:05.250000" = some "01/02/2018" := by decide
example : Lire2.convert_date_format "01/02/2018" = none := by decide
example : strptimeDate ⟨.dmy, '/'⟩ "01/02/2018" = some ⟨2018, 2, 1⟩ := by decide
example : toDatetimeCell (.str "2018-01-02") = some ⟨2018, 1, 2⟩ := by decide
example : toDatetimeCell (.str "garbage") = none := by decide
example : invalid_dates [.str "garbage", .str "2018-01-02", .missing, .date ⟨2020, 5, 1⟩] = 2 := by
  decide

example : Lire2.valider_numero_serie "0118001" = "Valide" := by decide
example : Lire2.valider_numero_serie "0018001" = "Valide" := by decide
example : Lire2.valider_numero_serie "1318001" = "Invalide (2 premiers > 12)" := by decide
example : Lire2.valider_numero_serie "0116001" = "Invalide (chiffres 3-4 hors 17-26)" := by decide
example : Lire2.valider_numero_serie "011800" = "Invalide (longueur)" := by decide
example : Lire2.valider_numero_serie "¹²18001" = "Valide" := by decide
example : Lire2.valider_numero_serie " 0118001 " = "Valide" := by decide
example : Lire2.validerCell .nan = "Invalide (longueur)" := by decide
example : Lire2.valider_numero_serie "01x8001" = "Invalide (longueur)" := by decide
example : Lire1.valider_numero_serie "0118001" = some "Valide" := by decide
example : Lire1.valider_numero_serie "01x8001" = some "Invalide (longueur)" := by decide
example : Lire1.valider_numero_serie "¹²18001" = some "Valide" := by decide
example : Lire1.valider_numero_serie "₁₂₁₈₀₀₁" = none := by decide
example : Lire2.valider_numero_serie "₁₂₁₈₀₀₁" = "Valide" := by decide

example : Dedup.deduplicate [⟨"M", "S", 1⟩, ⟨"M", "S", 2⟩] = [⟨"M", "S", 1⟩] := by decide
example : Dedup.deduplicate [⟨"M", "S", 2⟩, ⟨"M", "S", 1⟩] = [⟨"M", "S", 2⟩] := by decide
example : Dedup.duplicatedCount [⟨"M", "S", 1⟩, ⟨"M", "S", 2⟩, ⟨"N", "S", 3⟩] = 1 := by decide
example : Dedup.removedCount [⟨"M", "S", 1⟩, ⟨"M", "S", 2⟩, ⟨"N", "S", 3⟩] = 1 := by decide
example : Dedup.sortBySerie [⟨"M", "B", 1⟩, ⟨"M", "A", 2⟩] = [⟨"M", "A", 2⟩, ⟨"M", "B", 1⟩] := by decide

/-! ## Lemmas about the deduplication pipeline -/

namespace Dedup

/-- Inserting into the sorted list is a permutation of consing. -/
lemma sortedInsert_perm (r : Row) : ∀ l : List Row, List.Perm (sortedInsert r l) (r :: l) := by
  intro l
  induction l with
  | nil => simp [sortedInsert]
  | cons b t ih =>
    by_cases h : serialLt b.serie r.serie
    · have h1 : sortedInsert r (b :: t) = b :: sortedInsert r t := by
        simp [sortedInsert, h]
      rw [h1]
      exact (ih.cons b).trans (List.Perm.swap r b t)
    · simp [sortedInsert, h]

/-- The sort is a permutation of its input. -/
lemma sortBySerie_perm : ∀ l : List Row, List.Perm (sortBySerie l) l := by
  intro l
  induction l with
  | nil => simp [sortBySerie]
  | cons a t ih =>
    exact (sortedInsert_perm a (sortBySerie t)).trans (ih.cons a)

/-- Permutation-equal lists have the same associated finset. -/
lemma toFinset_perm {α : Type} [DecidableEq α] {l₁ l₂ : List α} (h : List.Perm l₁ l₂) :
    l₁.toFinset = l₂.toFinset := by
  ext a
  simp [List.mem_toFinset, h.mem_iff]

/-- Length of the duplicate-dropped list: the number of distinct keys not yet
seen. -/
lemma dropDupAux_length (l : List Row) : ∀ seen : List (String × String),
    (dropDupAux seen l).length = ((l.map dedupKey).toFinset \ seen.toFinset).card := by
  induction l with
  | nil => intro seen; simp [dropDupAux]
  | cons r t ih =>
    intro seen
    by_cases h : dedupKey r ∈ seen
    · have hmem : dedupKey r ∈ seen.toFinset := List.mem_toFinset.mpr h
      simp only [dropDupAux, if_pos h, List.map_cons, List.toFinset_cons]
      rw [Finset.insert_sdiff_of_mem _ hmem]
      exact ih seen
    · have hmem : dedupKey r ∉ seen.toFinset := fun hc => h (List.mem_toFinset.mp hc)
      simp only [dropDupAux, if_neg h, List.map_cons, List.toFinset_cons, List.length_cons]
      rw [ih (dedupKey r :: seen)]
      rw [List.toFinset_cons, Finset.sdiff_insert, Finset.insert_sdiff_of_not_mem _ hmem]
      set X := (t.map dedupKey).toFinset \ seen.toFinset with hX
      by_cases hk : dedupKey r ∈ X
      · rw [Finset.insert_eq_self.mpr hk]
        exact Finset.card_erase_add_one hk
      · rw [Finset.erase_eq_of_not_mem hk, Finset.card_insert_of_not_mem hk]

/-- The duplicate count plus the number of distinct unseen keys is the row
count. -/
lemma duplicatedCountAux_add (l : List Row) : ∀ seen : List (String × String),
    duplicatedCountAux seen l + ((l.map dedupKey).toFinset \ seen.toFinset).card
      = l.length := by
  induction l with
  | nil => intro seen; simp [duplicatedCountAux]
  | cons r t ih =>
    intro seen
    by_cases h : dedupKey r ∈ seen
    · have hmem : dedupKey r ∈ seen.toFinset := List.mem_toFinset.mpr h
      simp only [duplicatedCountAux, if_pos h, List.map_cons, List.toFinset_cons,
        List.length_cons]
      rw [Finset.insert_sdiff_of_mem _ hmem]
      have hrec := ih (dedupKey r :: seen)
      rw [List.toFinset_cons, Finset.insert_eq_self.mpr hmem] at hrec
      omega
    · have hmem : dedupKey r ∉ seen.toFinset := fun hc => h (List.mem_toFinset.mp hc)
      simp only [duplicatedCountAux, if_neg h, List.map_cons, List.toFinset_cons,
        List.length_cons]
      have hrec := ih (dedupKey r :: seen)
      rw [List.toFinset_cons, Finset.sdiff_insert] at hrec
      rw [Finset.insert_sdiff_of_not_mem _ hmem]
      set X := (t.map dedupKey).toFinset \ seen.toFinset with hX
      by_cases hk : dedupKey r ∈ X
      · rw [Finset.insert_eq_self.mpr hk]
        have h1 := Finset.card_erase_add_one hk
        omega
      · rw [Finset.erase_eq_of_not_mem hk] at hrec
        rw [Finset.card_insert_of_not_mem hk]
        omega

/-- Keys surviving `drop_duplicates` are pairwise distinct and disjoint from
the already-seen keys. -/
lemma dropDupAux_nodup (l : List Row) : ∀ seen : List (String × String),
    ((dropDupAux seen l).map dedupKey).Nodup ∧
      ∀ k ∈ (dropDupAux seen l).map dedupKey, k ∉ seen := by
  induction l with
  | nil => intro seen; simp [dropDupAux]
  | cons r t ih =>
    intro seen
    by_cases h : dedupKey r ∈ seen
    · simpa [dropDupAux, if_pos h] using ih seen
    · obtain ⟨hnd, hout⟩ := ih (dedupKey r :: seen)
      refine ⟨?_, ?_⟩
      · simp only [dropDupAux, if_neg h, List.map_cons, List.nodup_cons]
        exact ⟨fun hc => (hout _ hc) (List.mem_cons_self _ _), hnd⟩
      · intro k hk
        simp only [dropDupAux, if_neg h, List.map_cons, List.mem_cons] at hk
        rcases hk with hk | hk
        · exact hk ▸ h
        · exact fun hc => (hout _ hk) (List.mem_cons_of_mem _ hc)

/-- Every survivor of `drop_duplicates` is an input row. -/
lemma dropDupAux_subset (l : List Row) : ∀ seen : List (String × String),
    ∀ r ∈ dropDupAux seen l, r ∈ l := by
  induction l with
  | nil => intro seen r hr; simp [dropDupAux] at hr
  | cons a t ih =>
    intro seen r hr
    by_cases h : dedupKey a ∈ seen
    · simp only [dropDupAux, if_pos h] at hr
      exact List.mem_cons_of_mem _ (ih seen r hr)
    · simp only [dropDupAux, if_neg h, List.mem_cons] at hr
      rcases hr with hr | hr
      · exact hr ▸ List.mem_cons_self _ _
      · exact List.mem_cons_of_mem _ (ih _ r hr)

end Dedup

/-- C5 (amended): deduplication sorts by serial and keeps the first occurrence
per `(model, serial)` key, so the output contains no two rows sharing that
key, every surviving row is an input row, the duplicate count reported by
`lire1.py` equals input rows minus output rows, and the removed count
reported by `lire2.py` is input rows minus output rows by construction.
(The original claim's assertion that the survivor is fixed by the sort alone,
independent of input order, is refuted separately: rows sharing the full key
also share the serial, so the serial sort cannot separate them.) -/
theorem dedupe_key_unique_and_counts (l : List Dedup.Row) :
    ((Dedup.deduplicate l).map Dedup.dedupKey).Nodup ∧
    (∀ r ∈ Dedup.deduplicate l, r ∈ l) ∧
    Dedup.duplicatedCount l + (Dedup.deduplicate l).length = l.length ∧
    Dedup.removedCount l = l.length - (Dedup.deduplicate l).length := by
  refine ⟨?_, ?_, ?_, rfl⟩
  · exact (Dedup.dropDupAux_nodup (Dedup.sortBySerie l) []).1
  · intro r hr
    have h1 : r ∈ Dedup.sortBySerie l :=
      Dedup.dropDupAux_subset (Dedup.sortBySerie l) [] r hr
    exact (Dedup.sortBySerie_perm l).mem_iff.mp h1
  · have h1 : (Dedup.deduplicate l).length = (l.map Dedup.dedupKey).toFinset.card := by
      have h2 := Dedup.dropDupAux_length (Dedup.sortBySerie l) []
      have h3 : ((Dedup.sortBySerie l).map Dedup.dedupKey).toFinset
          = (l.map Dedup.dedupKey).toFinset :=
        Dedup.toFinset_perm ((Dedup.sortBySerie_perm l).map Dedup.dedupKey)
      simpa [Dedup.deduplicate, Dedup.drop_duplicates, h3] using h2
    have h4 := Dedup.duplicatedCountAux_add l []
    simp only [List.toFinset_nil, Finset.sdiff_empty] at h4
    rw [h1]
    exact h4

/-- C5 witness: the general theorem applied to a concrete three-row table
with one duplicated `(model, serial)` key. -/
theorem dedupe_key_unique_and_counts_witness :
    ((⟨"M", "S", 5⟩ : Dedup.Row) ∈
      [(⟨"M", "S", 5⟩ : Dedup.Row), ⟨"M", "S", 9⟩, ⟨"N", "T", 1⟩]) ∧
    Dedup.duplicatedCount [⟨"M", "S", 5⟩, ⟨"M", "S", 9⟩, ⟨"N", "T", 1⟩] +
      (Dedup.deduplicate [⟨"M", "S", 5⟩, ⟨"M", "S", 9⟩, ⟨"N", "T", 1⟩]).length = 3 := by
  refine ⟨?_, ?_⟩
  · exact (dedupe_key_unique_and_counts
      [⟨"M", "S", 5⟩, ⟨"M", "S", 9⟩, ⟨"N", "T", 1⟩]).2.1 ⟨"M", "S", 5⟩ (by decide)
  · exact (dedupe_key_unique_and_counts
      [⟨"M", "S", 5⟩, ⟨"M", "S", 9⟩, ⟨"N", "T", 1⟩]).2.2.1

/-- C5 counterexample: two tables holding the same two rows (equal
`(model, serial)` key, different remaining columns) in opposite orders are
permutations of each other, yet deduplication keeps a different survivor for
each — the serial sort cannot separate rows sharing the full key, so the
survivor does depend on input order, contrary to the claim. -/
theorem dedupe_survivor_depends_on_input_order :
    List.Perm [(⟨"M", "S", 1⟩ : Dedup.Row), ⟨"M", "S", 2⟩]
      [(⟨"M", "S", 2⟩ : Dedup.Row), ⟨"M", "S", 1⟩] ∧
    Dedup.deduplicate [⟨"M", "S", 1⟩, ⟨"M", "S", 2⟩] = [⟨"M", "S", 1⟩] ∧
    Dedup.deduplicate [⟨"M", "S", 2⟩, ⟨"M", "S", 1⟩] = [⟨"M", "S", 2⟩] ∧
    ((⟨"M", "S", 1⟩ : Dedup.Row) ≠ ⟨"M", "S", 2⟩) := by
  refine ⟨List.Perm.swap _ _ _, by decide, by decide, by decide⟩

/-! ## Lemmas about the record merger of `QQQQ.py` -/

namespace QQQQ

/-- A serial key matches at most one row of a serial-unique summary table. -/
lemma filter_serie_le_one_inc (agg : List IncidentAgg) (s : String)
    (h : (agg.map (·.serie)).Nodup) :
    (agg.filter (·.serie = s)).length ≤ 1 := by
  induction agg with
  | nil => simp
  | cons a t ih =>
    rw [List.map_cons, List.nodup_cons] at h
    obtain ⟨hna, hnd⟩ := h
    by_cases hs : a.serie = s
    · have ht : t.filter (·.serie = s) = [] := by
        rw [List.filter_eq_nil_iff]
        intro x hx
        simp only [decide_eq_true_eq]
        intro hxs
        exact hna (List.mem_map.mpr ⟨x, hx, by rw [hxs, hs]⟩)
      simp [List.filter_cons, hs, ht]
    · simp only [List.filter_cons, hs]
      simpa using ih hnd

/-- A serial key matches at most one row of a serial-unique return summary. -/
lemma filter_serie_le_one_ret (agg : List RetourAgg) (s : String)
    (h : (agg.map (·.serie)).Nodup) :
    (agg.filter (·.serie = s)).length ≤ 1 := by
  induction agg with
  | nil => simp
  | cons a t ih =>
    rw [List.map_cons, List.nodup_cons] at h
    obtain ⟨hna, hnd⟩ := h
    by_cases hs : a.serie = s
    · have ht : t.filter (·.serie = s) = [] := by
        rw [List.filter_eq_nil_iff]
        intro x hx
        simp only [decide_eq_true_eq]
        intro hxs
        exact hna (List.mem_map.mpr ⟨x, hx, by rw [hxs, hs]⟩)
      simp [List.filter_cons, hs, ht]
    · simp only [List.filter_cons, hs]
      simpa using ih hnd

/-- The serials of the incident summary are the distinct incident serials. -/
lemma incidents_agg_serie (incs : List IncidentRow) :
    (incidents_agg incs).map (·.serie) = (incs.map (·.serie)).dedup := by
  simp only [incidents_agg, List.map_map]
  exact List.map_id' _

/-- The incident summary has pairwise-distinct serials. -/
lemma incidents_agg_nodup (incs : List IncidentRow) :
    ((incidents_agg incs).map (·.serie)).Nodup := by
  rw [incidents_agg_serie]
  exact List.nodup_dedup _

/-- The serials of the return summary are the distinct return serials. -/
lemma retours_agg_serie (rets : List RetourRow) :
    (retours_agg rets).map (·.serie) = (rets.map (·.serie)).dedup := by
  simp only [retours_agg, List.map_map]
  exact List.map_id' _

/-- The return summary has pairwise-distinct serials. -/
lemma retours_agg_nodup (rets : List RetourRow) :
    ((retours_agg rets).map (·.serie)).Nodup := by
  rw [retours_agg_serie]
  exact List.nodup_dedup _

/-- With serial-unique summaries, each installation row contributes exactly
one row to the first merge. -/
lemma blockInc_length (agg : List IncidentAgg) (r : InstallRow)
    (h : (agg.map (·.serie)).Nodup) :
    (blockInc agg r).length = 1 := by
  unfold blockInc
  cases hf : agg.filter (·.serie = r.serie) with
  | nil => simp
  | cons a t =>
    have hle := filter_serie_le_one_inc agg r.serie h
    rw [hf] at hle
    simp only [List.length_cons] at hle
    have ht : t = [] := List.length_eq_zero.mp (by omega)
    subst ht
    simp

/-- With serial-unique summaries, each first-merge row contributes exactly
one row to the second merge. -/
lemma blockRet_length (agg : List RetourAgg) (m : Merged1)
    (h : (agg.map (·.serie)).Nodup) :
    (blockRet agg m).length = 1 := by
  unfold blockRet
  cases hf : agg.filter (·.serie = m.inst.serie) with
  | nil => simp
  | cons a t =>
    have hle := filter_serie_le_one_ret agg m.inst.serie h
    rw [hf] at hle
    simp only [List.length_cons] at hle
    have ht : t = [] := List.length_eq_zero.mp (by omega)
    subst ht
    simp

/-- The first merge is row-count preserving for serial-unique summaries. -/
lemma leftMergeInc_length (agg : List IncidentAgg) (h : (agg.map (·.serie)).Nodup) :
    ∀ install : List InstallRow, (leftMergeInc install agg).length = install.length := by
  intro install
  induction install with
  | nil => rfl
  | cons r t ih =>
    simp only [leftMergeInc, List.length_append, ih, blockInc_length agg r h,
      List.length_cons]
    omega

/-- The second merge is row-count preserving for serial-unique summaries. -/
lemma leftMergeRet_length (agg : List RetourAgg) (h : (agg.map (·.serie)).Nodup) :
    ∀ ms : List Merged1, (leftMergeRet ms agg).length = ms.length := by
  intro ms
  induction ms with
  | nil => rfl
  | cons m t ih =>
    simp only [leftMergeRet, List.length_append, ih, blockRet_length agg m h,
      List.length_cons]
    omega

/-- A serial absent from the incident table is absent from its summary, so
its filter block is empty. -/
lemma incidents_agg_filter_unmatched (incs : List IncidentRow) (s : String)
    (h : s ∉ incs.map (·.serie)) :
    (incidents_agg incs).filter (·.serie = s) = [] := by
  rw [List.filter_eq_nil_iff]
  intro a ha
  simp only [decide_eq_true_eq]
  intro has
  have hmem : a.serie ∈ (incidents_agg incs).map (·.serie) := List.mem_map_of_mem _ ha
  rw [incidents_agg_serie] at hmem
  exact h (has ▸ List.mem_dedup.mp hmem)

/-- A serial absent from the return table is absent from its summary. -/
lemma retours_agg_filter_unmatched (rets : List RetourRow) (s : String)
    (h : s ∉ rets.map (·.serie)) :
    (retours_agg rets).filter (·.serie = s) = [] := by
  rw [List.filter_eq_nil_iff]
  intro a ha
  simp only [decide_eq_true_eq]
  intro has
  have hmem : a.serie ∈ (retours_agg rets).map (·.serie) := List.mem_map_of_mem _ ha
  rw [retours_agg_serie] at hmem
  exact h (has ▸ List.mem_dedup.mp hmem)

/-- Rows contributed by an installation row are in the merged table. -/
lemma mem_leftMergeInc (agg : List IncidentAgg) :
    ∀ install : List InstallRow, ∀ r ∈ install, ∀ m ∈ blockInc agg r,
      m ∈ leftMergeInc install agg := by
  intro install
  induction install with
  | nil => intro r hr; simp at hr
  | cons a t ih =>
    intro r hr m hm
    rcases List.mem_cons.mp hr with h | h
    · subst h
      exact List.mem_append_left _ hm
    · exact List.mem_append_right _ (ih r h m hm)

/-- Rows contributed by a first-merge row are in the second merged table. -/
lemma mem_leftMergeRet (agg : List RetourAgg) :
    ∀ ms : List Merged1, ∀ m ∈ ms, ∀ x ∈ blockRet agg m,
      x ∈ leftMergeRet ms agg := by
  intro ms
  induction ms with
  | nil => intro m hm; simp at hm
  | cons a t ih =>
    intro m hm x hx
    rcases List.mem_cons.mp hm with h | h
    · subst h
      exact List.mem_append_left _ hx
    · exact List.mem_append_right _ (ih m h x hx)

end QQQQ

/-- C2 (amended): the merge of `QQQQ.py` pre-aggregates the incident and
return tables per serial before joining, so for every installations table and
any incident and return tables — empty ones and ones with repeated serials
included — its output has exactly as many rows as the installations input.
(The `process_data` variant of `api.py`, which joins the raw tables without
pre-aggregation, is not row-count preserving; see the counterexample.) -/
theorem qqqq_merge_row_count_preserved (now : Int) (install : List QQQQ.InstallRow)
    (incs : List QQQQ.IncidentRow) (rets : List QQQQ.RetourRow) :
    (QQQQ.process_data now install incs rets).length = install.length := by
  unfold QQQQ.process_data
  rw [List.length_map]
  rw [QQQQ.leftMergeRet_length _ (QQQQ.retours_agg_nodup rets)]
  exact QQQQ.leftMergeInc_length _ (QQQQ.incidents_agg_nodup incs) install

/-- C2 counterexample: `process_data` of `api.py` joins the raw incident
table, so a single installation row whose serial carries two incident rows
produces two output rows — the claimed row-count preservation fails on this
variant of the merge. -/
theorem api_merge_row_explosion :
    (Api.process_data [⟨"A", "M", some 0⟩]
        [⟨"A", "i1", some 5⟩, ⟨"A", "i2", some 6⟩] []).length = 2 ∧
    ([(⟨"A", "M", some 0⟩ : Api.InstRow)]).length = 1 := by
  decide

/-- C7: in the merge of `QQQQ.py`, an installation row whose serial matches
no incident row and no return row is kept, with incident and return counts
zero, null last-incident and last-return dates, null RMA, and a false
incident-without-return flag; and every merged record has
`a_incident_sans_retour` true exactly when its incident count is positive
and its return count is zero. -/
theorem merge_unmatched_zero_and_flag (now : Int) (install : List QQQQ.InstallRow)
    (incs : List QQQQ.IncidentRow) (rets : List QQQQ.RetourRow) :
    (∀ r ∈ install, r.serie ∉ incs.map (·.serie) → r.serie ∉ rets.map (·.serie) →
      ({ inst := r, nombreIncidents := 0, dernierIncident := none,
         nombreRetours := 0, dernierRetour := none, rma := none,
         dureeDepuisInstallation := r.dateInstallation.map (now - ·),
         joursInactivite := r.derniereConnexion.map (now - ·),
         aIncidentSansRetour := false } : QQQQ.FinalRow)
        ∈ QQQQ.process_data now install incs rets) ∧
    (∀ out ∈ QQQQ.process_data now install incs rets,
      out.aIncidentSansRetour
        = (decide (out.nombreIncidents > 0) && decide (out.nombreRetours = 0))) := by
  constructor
  · intro r hr hni hnr
    have hb1 : QQQQ.blockInc (QQQQ.incidents_agg incs) r
        = [⟨r, none, none⟩] := by
      unfold QQQQ.blockInc
      rw [QQQQ.incidents_agg_filter_unmatched incs r.serie hni]
    have hm1 : (⟨r, none, none⟩ : QQQQ.Merged1)
        ∈ QQQQ.leftMergeInc install (QQQQ.incidents_agg incs) := by
      apply QQQQ.mem_leftMergeInc _ install r hr
      rw [hb1]
      exact List.mem_singleton.mpr rfl
    have hb2 : QQQQ.blockRet (QQQQ.retours_agg rets) ⟨r, none, none⟩
        = [⟨r, none, none, none, none, none⟩] := by
      unfold QQQQ.blockRet
      rw [QQQQ.retours_agg_filter_unmatched rets r.serie hnr]
    have hm2 : (⟨r, none, none, none, none, none⟩ : QQQQ.Merged2)
        ∈ QQQQ.leftMergeRet (QQQQ.leftMergeInc install (QQQQ.incidents_agg incs))
            (QQQQ.retours_agg rets) := by
      apply QQQQ.mem_leftMergeRet _ _ _ hm1
      rw [hb2]
      exact List.mem_singleton.mpr rfl
    exact List.mem_map_of_mem (QQQQ.finalize now) hm2
  · intro out hout
    unfold QQQQ.process_data at hout
    obtain ⟨m, _, rfl⟩ := List.mem_map.mp hout
    rfl

/-- C7 witness: a concrete installation row whose serial `"B"` appears in no
incident and no return row survives the merge with zero counts, null dates
and a false flag, and satisfies the flag equation. -/
theorem merge_unmatched_zero_and_flag_witness :
    (({ inst := ⟨"B", "M", "F", some 3, some 1⟩, nombreIncidents := 0,
        dernierIncident := none, nombreRetours := 0, dernierRetour := none,
        rma := none, dureeDepuisInstallation := some 4, joursInactivite := some 6,
        aIncidentSansRetour := false } : QQQQ.FinalRow)
      ∈ QQQQ.process_data 7 [⟨"B", "M", "F", some 3, some 1⟩]
          [⟨"A", some "i", some 5⟩] []) ∧
    (false : Bool) = (decide ((0 : Nat) > 0) && decide ((0 : Nat) = 0)) := by
  have h := merge_unmatched_zero_and_flag 7 [⟨"B", "M", "F", some 3, some 1⟩]
    [⟨"A", some "i", some 5⟩] []
  have hmem := h.1 ⟨"B", "M", "F", some 3, some 1⟩ (by decide) (by decide) (by decide)
  exact ⟨hmem, h.2 _ hmem⟩

/-- C3 (amended): in both TTF implementations a record with no incident date
always gets a null time-to-failure. For a record with an incident date the
nullness is characterized exactly: `data.py` yields null precisely when both
the installation and the fabrication date are absent, while `vf1.py` yields
null precisely when the fabrication date is absent and the installation-based
value is absent or non-positive (its `ttf_inst > 0` test fails, so it falls
back to the null fabrication difference). In particular a record carrying an
incident date can still have a null TTF. -/
theorem ttf_nullness_characterization (r : DeviceRow) :
    (r.incidentDate = none →
      Vf1.timeToFailure r = none ∧ DataPy.timeToFailureMonths r = none) ∧
    (∀ i : Int, r.incidentDate = some i →
      (DataPy.timeToFailureMonths r = none ↔
        r.installationDate = none ∧ r.fabricationDate = none) ∧
      (Vf1.timeToFailure r = none ↔
        r.fabricationDate = none ∧
          ∀ d : Int, r.installationDate = some d →
            ((i - d : Int) : ℚ) / moisEnJours ≤ 0)) := by
  constructor
  · intro h
    constructor
    · simp [Vf1.timeToFailure, h]
    · simp [DataPy.timeToFailureMonths, DataPy.ttfInstallation, DataPy.ttfFabrication,
        diffMonths, h]
  · intro i hi
    constructor
    · rcases hd : r.installationDate with _ | d <;> rcases hf : r.fabricationDate with _ | f <;>
        simp [DataPy.timeToFailureMonths, DataPy.ttfInstallation, DataPy.ttfFabrication,
          diffMonths, hi, hd, hf]
    · rcases hd : r.installationDate with _ | d <;> rcases hf : r.fabricationDate with _ | f
      · constructor
        · intro _
          exact ⟨rfl, fun d2 hd2 => Option.noConfusion hd2⟩
        · intro _
          simp only [Vf1.timeToFailure, Vf1.ttfInst, Vf1.ttfFab, diffMonths, hi, hd, hf,
            Option.isSome_some, if_true]
      · constructor
        · intro h
          exfalso
          have he : Vf1.timeToFailure r = some (((i - f : Int) : ℚ) / moisEnJours) := by
            simp only [Vf1.timeToFailure, Vf1.ttfInst, Vf1.ttfFab, diffMonths, hi, hd, hf,
              Option.isSome_some, if_true]
          rw [he] at h
          exact Option.noConfusion h
        · rintro ⟨hfn, -⟩
          exact Option.noConfusion hfn
      · constructor
        · intro h
          refine ⟨rfl, ?_⟩
          intro d2 hd2
          injection hd2 with hdd
          subst hdd
          by_contra hpos
          push_neg at hpos
          have hgt : ((i - d : Int) : ℚ) / moisEnJours > 0 := hpos
          have he : Vf1.timeToFailure r = some (((i - d : Int) : ℚ) / moisEnJours) := by
            simp only [Vf1.timeToFailure, Vf1.ttfInst, Vf1.ttfFab, diffMonths, hi, hd, hf,
              Option.isSome_some, if_true]
            rw [if_pos hgt]
          rw [he] at h
          exact Option.noConfusion h
        · rintro ⟨-, hall⟩
          have hle := hall d rfl
          have hng : ¬(((i - d : Int) : ℚ) / moisEnJours > 0) := not_lt.mpr hle
          simp only [Vf1.timeToFailure, Vf1.ttfInst, Vf1.ttfFab, diffMonths, hi, hd, hf,
            Option.isSome_some, if_true]
          rw [if_neg hng]
      · constructor
        · intro h
          exfalso
          by_cases hv : ((i - d : Int) : ℚ) / moisEnJours > 0
          · have he : Vf1.timeToFailure r = some (((i - d : Int) : ℚ) / moisEnJours) := by
              simp only [Vf1.timeToFailure, Vf1.ttfInst, Vf1.ttfFab, diffMonths, hi, hd, hf,
                Option.isSome_some, if_true]
              rw [if_pos hv]
            rw [he] at h
            exact Option.noConfusion h
          · have he : Vf1.timeToFailure r = some (((i - f : Int) : ℚ) / moisEnJours) := by
              simp only [Vf1.timeToFailure, Vf1.ttfInst, Vf1.ttfFab, diffMonths, hi, hd, hf,
                Option.isSome_some, if_true]
              rw [if_neg hv]
            rw [he] at h
            exact Option.noConfusion h
        · rintro ⟨hfn, -⟩
          exact Option.noConfusion hfn

/-- C3 witness: the characterization applied to a record with no incident
date; to a record with an incident date, an installation date that the
incident precedes, and no fabrication date (null TTF in `vf1.py`); and to a
record with an incident date and no reference dates (null TTF in `data.py`).
-/
theorem ttf_nullness_characterization_witness :
    (Vf1.timeToFailure ⟨"M", "S", some 0, some 3, none, none⟩ = none ∧
      DataPy.timeToFailureMonths ⟨"M", "S", some 0, some 3, none, none⟩ = none) ∧
    Vf1.timeToFailure ⟨"M", "S", none, some 100, some 50, none⟩ = none ∧
    DataPy.timeToFailureMonths ⟨"M", "S", none, none, some 100, none⟩ = none := by
  refine ⟨?_, ?_, ?_⟩
  · exact (ttf_nullness_characterization ⟨"M", "S", some 0, some 3, none, none⟩).1 rfl
  · refine ((ttf_nullness_characterization
      ⟨"M", "S", none, some 100, some 50, none⟩).2 50 rfl).2.mpr ⟨rfl, ?_⟩
    intro d hd
    injection hd with hdd
    subst hdd
    norm_num [moisEnJours]
  · exact ((ttf_nullness_characterization
      ⟨"M", "S", none, none, some 100, none⟩).2 100 rfl).1.mpr ⟨rfl, rfl⟩

/-- C3 counterexample: a record with an incident date but neither an
installation nor a fabrication date receives a null time-to-failure from both
implementations, contradicting the claim that TTF is non-null for every
record with an incident date across all combinations of the other dates. -/
theorem ttf_none_with_incident_no_refs :
    (⟨"M", "S", none, none, some 100, none⟩ : DeviceRow).incidentDate = some 100 ∧
    Vf1.timeToFailure ⟨"M", "S", none, none, some 100, none⟩ = none ∧
    DataPy.timeToFailureMonths ⟨"M", "S", none, none, some 100, none⟩ = none :=
  ⟨rfl, rfl, rfl⟩

/-- C4 (amended): for a record carrying an incident date and both reference
dates, `vf1.py` computes the TTF from the installation date only when that
value is positive and otherwise recomputes it from the fabrication date,
while `data.py` takes the maximum of the installation-based and
fabrication-based values; in both cases the recorded value is one of the two
reference-based differences, unclamped — but a negative installation-based
value is replaced by the fabrication-based reference rather than recorded and
flagged. -/
theorem ttf_reference_choice_characterization (r : DeviceRow) (i d f : Int)
    (hi : r.incidentDate = some i) (hd : r.installationDate = some d)
    (hf : r.fabricationDate = some f) :
    Vf1.timeToFailure r
      = (if ((i - d : Int) : ℚ) / moisEnJours > 0
         then some (((i - d : Int) : ℚ) / moisEnJours)
         else some (((i - f : Int) : ℚ) / moisEnJours)) ∧
    DataPy.timeToFailureMonths r
      = some (max (((i - d : Int) : ℚ) / moisEnJours)
          (((i - f : Int) : ℚ) / moisEnJours)) := by
  constructor
  · simp only [Vf1.timeToFailure, Vf1.ttfInst, Vf1.ttfFab, diffMonths, hi, hd, hf,
      Option.isSome_some, if_true]
  · simp [DataPy.timeToFailureMonths, DataPy.ttfInstallation, DataPy.ttfFabrication,
      diffMonths, hi, hd, hf]

/-- C4 witness: the characterization applied to a concrete record whose
incident (day 50) precedes its installation (day 100) but follows its
fabrication (day 0). -/
theorem ttf_reference_choice_characterization_witness :
    Vf1.timeToFailure ⟨"M", "S", some 0, some 100, some 50, none⟩
      = (if (((50 : Int) - 100 : Int) : ℚ) / moisEnJours > 0
         then some ((((50 : Int) - 100 : Int) : ℚ) / moisEnJours)
         else some ((((50 : Int) - 0 : Int) : ℚ) / moisEnJours)) ∧
    DataPy.timeToFailureMonths ⟨"M", "S", some 0, some 100, some 50, none⟩
      = some (max ((((50 : Int) - 100 : Int) : ℚ) / moisEnJours)
          ((((50 : Int) - 0 : Int) : ℚ) / moisEnJours)) :=
  ttf_reference_choice_characterization
    ⟨"M", "S", some 0, some 100, some 50, none⟩ 50 100 0 rfl rfl rfl

/-- C4 counterexample: for the record with fabrication day 0, installation
day 100 and incident day 50, the claim prescribes the installation-based TTF
`(50-100)/30.44`, negative and flagged; both implementations instead record
the positive fabrication-based value `1250/761` months — the negative
installation-based result is replaced, not recorded. -/
theorem ttf_negative_replaced_by_fabrication :
    Vf1.timeToFailure ⟨"M", "S", some 0, some 100, some 50, none⟩
      = some (1250 / 761) ∧
    DataPy.timeToFailureMonths ⟨"M", "S", some 0, some 100, some 50, none⟩
      = some (1250 / 761) ∧
    (((50 : Int) - 100 : Int) : ℚ) / moisEnJours < 0 ∧
    ((1250 : ℚ) / 761) ≠ (((50 : Int) - 100 : Int) : ℚ) / moisEnJours ∧
    (0 : ℚ) < 1250 / 761 := by
  refine ⟨?_, ?_, ?_, ?_, ?_⟩
  · norm_num [Vf1.timeToFailure, Vf1.ttfInst, Vf1.ttfFab, diffMonths, moisEnJours]
  · norm_num [DataPy.timeToFailureMonths, DataPy.ttfInstallation, DataPy.ttfFabrication,
      diffMonths, moisEnJours]
  · norm_num [moisEnJours]
  · norm_num [moisEnJours]
  · norm_num

/-! ## Lemmas about the serial validator -/

namespace Lire2

/-- A cleaned serial of wrong length or with a non-digit character yields the
length-tagged result. -/
lemma valider_longueur (s : String)
    (h : (cleanSerial s).length ≠ 7 ∨ (cleanSerial s).all pyIsDigit = false) :
    valider_numero_serie s = "Invalide (longueur)" := by
  simp only [valider_numero_serie]
  rcases h with h | h
  · simp [h]
  · simp [h]

/-- A well-formed cleaned serial whose first two digits exceed 12 yields the
month-tagged result. -/
lemma valider_mois (s : String) (h7 : (cleanSerial s).length = 7)
    (ha : (cleanSerial s).all pyIsDigit = true)
    (hm : 12 < deuxPremiers (cleanSerial s)) :
    valider_numero_serie s = "Invalide (2 premiers > 12)" := by
  simp only [valider_numero_serie]
  simp [h7, ha, hm]

/-- A well-formed cleaned serial with month code at most 12 but year code
outside 17–26 yields the year-window-tagged result. -/
lemma valider_annee (s : String) (h7 : (cleanSerial s).length = 7)
    (ha : (cleanSerial s).all pyIsDigit = true)
    (hm : deuxPremiers (cleanSerial s) ≤ 12)
    (hy : troisQuatre (cleanSerial s) < 17 ∨ 26 < troisQuatre (cleanSerial s)) :
    valider_numero_serie s = "Invalide (chiffres 3-4 hors 17-26)" := by
  have hm2 : ¬(12 < deuxPremiers (cleanSerial s)) := not_lt.mpr hm
  simp only [valider_numero_serie]
  rcases hy with h | h
  · simp [h7, ha, hm2, h]
  · simp [h7, ha, hm2, h]

/-- A cleaned serial passing every rule yields `"Valide"`. -/
lemma valider_valide (s : String) (h7 : (cleanSerial s).length = 7)
    (ha : (cleanSerial s).all pyIsDigit = true)
    (hm : deuxPremiers (cleanSerial s) ≤ 12)
    (hy1 : 17 ≤ troisQuatre (cleanSerial s))
    (hy2 : troisQuatre (cleanSerial s) ≤ 26) :
    valider_numero_serie s = "Valide" := by
  have hm2 : ¬(12 < deuxPremiers (cleanSerial s)) := not_lt.mpr hm
  have hy1n : ¬(troisQuatre (cleanSerial s) < 17) := not_lt.mpr hy1
  have hy2n : ¬(26 < troisQuatre (cleanSerial s)) := not_lt.mpr hy2
  simp only [valider_numero_serie]
  simp [h7, ha, hm2, hy1n, hy2n]

end Lire2

/-- C1 (amended): the validator returns `"Valide"` iff the stripped,
glyph-normalized serial is exactly 7 digit characters, its first two digits
are at most 12 (a month code in `[0, 12]` — the source does not rule out 00),
and its digits 3–4 lie in the window 17–26; each violation yields its
specific tagged result, length violations taking precedence, then the month
rule, then the year window. -/
theorem serial_validation_characterization (s : String) :
    (Lire2.valider_numero_serie s = "Valide" ↔
      (Lire2.cleanSerial s).length = 7 ∧
      (Lire2.cleanSerial s).all pyIsDigit = true ∧
      Lire2.deuxPremiers (Lire2.cleanSerial s) ≤ 12 ∧
      17 ≤ Lire2.troisQuatre (Lire2.cleanSerial s) ∧
      Lire2.troisQuatre (Lire2.cleanSerial s) ≤ 26) ∧
    ((Lire2.cleanSerial s).length ≠ 7 ∨ (Lire2.cleanSerial s).all pyIsDigit = false →
      Lire2.valider_numero_serie s = "Invalide (longueur)") ∧
    ((Lire2.cleanSerial s).length = 7 → (Lire2.cleanSerial s).all pyIsDigit = true →
      12 < Lire2.deuxPremiers (Lire2.cleanSerial s) →
      Lire2.valider_numero_serie s = "Invalide (2 premiers > 12)") ∧
    ((Lire2.cleanSerial s).length = 7 → (Lire2.cleanSerial s).all pyIsDigit = true →
      Lire2.deuxPremiers (Lire2.cleanSerial s) ≤ 12 →
      (Lire2.troisQuatre (Lire2.cleanSerial s) < 17 ∨
        26 < Lire2.troisQuatre (Lire2.cleanSerial s)) →
      Lire2.valider_numero_serie s = "Invalide (chiffres 3-4 hors 17-26)") := by
  refine ⟨?_, Lire2.valider_longueur s, Lire2.valider_mois s, Lire2.valider_annee s⟩
  constructor
  · intro hv
    by_cases h7 : (Lire2.cleanSerial s).length = 7
    · cases ha : (Lire2.cleanSerial s).all pyIsDigit with
      | false =>
        rw [Lire2.valider_longueur s (Or.inr ha)] at hv
        exact absurd hv (by decide)
      | true =>
        by_cases hm : Lire2.deuxPremiers (Lire2.cleanSerial s) ≤ 12
        · by_cases hy1 : 17 ≤ Lire2.troisQuatre (Lire2.cleanSerial s)
          · by_cases hy2 : Lire2.troisQuatre (Lire2.cleanSerial s) ≤ 26
            · exact ⟨h7, rfl, hm, hy1, hy2⟩
            · rw [Lire2.valider_annee s h7 ha hm (Or.inr (not_le.mp hy2))] at hv
              exact absurd hv (by decide)
          · rw [Lire2.valider_annee s h7 ha hm (Or.inl (not_le.mp hy1))] at hv
            exact absurd hv (by decide)
        · rw [Lire2.valider_mois s h7 ha (not_le.mp hm)] at hv
          exact absurd hv (by decide)
    · rw [Lire2.valider_longueur s (Or.inl h7)] at hv
      exact absurd hv (by decide)
  · rintro ⟨h7, ha, hm, hy1, hy2⟩
    exact Lire2.valider_valide s h7 ha hm hy1 hy2

/-- C1 witness: the characterization applied to concrete serials covering the
valid case and each violation. -/
theorem serial_validation_characterization_witness :
    Lire2.valider_numero_serie "0118001" = "Valide" ∧
    Lire2.valider_numero_serie "011800" = "Invalide (longueur)" ∧
    Lire2.valider_numero_serie "1318001" = "Invalide (2 premiers > 12)" ∧
    Lire2.valider_numero_serie "0116001" = "Invalide (chiffres 3-4 hors 17-26)" := by
  refine ⟨?_, ?_, ?_, ?_⟩
  · exact (serial_validation_characterization "0118001").1.mpr
      ⟨by decide, by decide, by decide, by decide, by decide⟩
  · exact (serial_validation_characterization "011800").2.1 (Or.inl (by decide))
  · exact (serial_validation_characterization "1318001").2.2.1 (by decide) (by decide)
      (by decide)
  · exact (serial_validation_characterization "0116001").2.2.2 (by decide) (by decide)
      (by decide) (Or.inl (by decide))

/-- C1 counterexample: the serial `"0018001"` is judged `"Valide"` although
its month code is 00, outside the claimed range `[1, 12]` — the source only
checks the upper bound. -/
theorem serial_month_zero_accepted :
    Lire2.valider_numero_serie "0018001" = "Valide" ∧
    Lire2.deuxPremiers (Lire2.cleanSerial "0018001") = 0 ∧
    ¬(1 ≤ Lire2.deuxPremiers (Lire2.cleanSerial "0018001")) := by
  decide

/-- C10 (amended): over the modelled repertoire, the `lire2.py` validator
applied to a raw cell is total and tagged — it always returns one of the four
result strings; a missing (`NaN`) cell stringifies to `"nan"` and is
classified `"Invalide (longueur)"` rather than raising; and a cell whose
cleaned string has the right length 7 but contains any non-digit character is
also classified `"Invalide (longueur)"`. (The original totality claim fails
for the cited `lire1.py` variant, whose unmapped subscript digits pass the
`isdigit` check and then make `int(c)` raise; see the counterexample.) -/
theorem serial_validator_total_on_cells (c : Lire2.Cell) :
    (Lire2.validerCell c = "Valide" ∨
     Lire2.validerCell c = "Invalide (longueur)" ∨
     Lire2.validerCell c = "Invalide (2 premiers > 12)" ∨
     Lire2.validerCell c = "Invalide (chiffres 3-4 hors 17-26)") ∧
    (c = Lire2.Cell.nan → Lire2.validerCell c = "Invalide (longueur)") ∧
    (∀ v, c = Lire2.Cell.str v → (Lire2.cleanSerial v).length = 7 →
      (∃ ch ∈ Lire2.cleanSerial v, pyIsDigit ch = false) →
      Lire2.validerCell c = "Invalide (longueur)") := by
  refine ⟨?_, ?_, ?_⟩
  · simp only [Lire2.validerCell, Lire2.valider_numero_serie]
    split_ifs <;> simp
  · rintro rfl
    decide
  · rintro v rfl h7 ⟨ch, hch, hd⟩
    have ha : (Lire2.cleanSerial v).all pyIsDigit = false :=
      List.all_eq_false.mpr ⟨ch, hch, by simp [hd]⟩
    exact Lire2.valider_longueur v (Or.inr ha)

/-- C10 witness: a missing cell and a right-length cell carrying the
non-digit character `x` both get the length-tagged result. -/
theorem serial_validator_total_on_cells_witness :
    Lire2.validerCell Lire2.Cell.nan = "Invalide (longueur)" ∧
    Lire2.validerCell (Lire2.Cell.str "12x4567") = "Invalide (longueur)" := by
  refine ⟨?_, ?_⟩
  · exact (serial_validator_total_on_cells Lire2.Cell.nan).2.1 rfl
  · exact (serial_validator_total_on_cells (Lire2.Cell.str "12x4567")).2.2 "12x4567" rfl
      (by decide) ⟨'x', by decide, by decide⟩

/-- C10 counterexample: the validator family is not total over arbitrary cell
values. In `lire1.py` the subscript digits are not in the glyph table, so the
7-character subscript serial passes the length-and-`isdigit` check (each
subscript satisfies Python `isdigit`) and the unguarded comprehension
`[int(c) for c in cleaned_str]` then raises `ValueError` (`none` here)
instead of returning any `Invalide` result; `lire2.py`, which maps the
subscript glyphs, classifies the same cell `"Valide"`. -/
theorem lire1_subscript_serial_raises :
    Lire1.valider_numero_serie "₁₂₁₈₀₀₁" = none ∧
    (Lire1.cleanSerial "₁₂₁₈₀₀₁").length = 7 ∧
    (Lire1.cleanSerial "₁₂₁₈₀₀₁").all pyIsDigit = true ∧
    Lire2.valider_numero_serie "₁₂₁₈₀₀₁" = "Valide" := by
  decide

/-! ## Lemmas about the date normalizer -/

/-- Pattern trial fails exactly when every pattern in the list fails. -/
lemma tryPatterns_eq_none (s : String) : ∀ ps : List DatePattern,
    tryPatterns ps s = none ↔ ∀ p ∈ ps, strptimeDate p s = none := by
  intro ps
  induction ps with
  | nil => simp [tryPatterns]
  | cons p rest ih =>
    simp only [tryPatterns]
    cases hp : strptimeDate p s with
    | some d => simp [hp]
    | none => simp [hp, ih]

/-- A cell coerces to null exactly when it defeats every candidate pattern. -/
lemma toDatetimeCell_none_iff (c : DateCell) :
    toDatetimeCell c = none ↔ FailsAllPatterns c := by
  cases c with
  | date d => simp [toDatetimeCell, FailsAllPatterns]
  | missing => simp [toDatetimeCell, FailsAllPatterns]
  | str s => simp [toDatetimeCell, FailsAllPatterns, tryPatterns_eq_none]

/-- C8: the per-column date conversion keeps every row (no cell can raise — a
failing cell becomes null), and the per-column counter reported by
`prepare_data` equals exactly the number of cells that defeat every candidate
pattern; every such cell indeed converts to null. -/
theorem date_coercion_counter_exact (col : List DateCell) :
    (convertDateColumn col).length = col.length ∧
    invalid_dates col = col.countP (fun c => decide (FailsAllPatterns c)) ∧
    (∀ c ∈ col, FailsAllPatterns c → toDatetimeCell c = none) := by
  refine ⟨by simp [convertDateColumn], ?_, ?_⟩
  · unfold invalid_dates convertDateColumn
    rw [List.countP_map]
    apply List.countP_congr
    intro c _
    simp [Option.isNone_iff_eq_none, toDatetimeCell_none_iff]
  · intro c _ h
    exact (toDatetimeCell_none_iff c).mpr h

/-- C8 witness: a concrete column with one unparseable string, one parseable
string, one missing cell and one already-typed date: the conversion keeps all
four rows, the counter reports the two cells defeating every pattern, and the
unparseable cell converts to null. -/
theorem date_coercion_counter_exact_witness :
    (convertDateColumn [.str "garbage", .str "2018-01-02", .missing,
        .date ⟨2020, 5, 1⟩]).length
      = ([.str "garbage", .str "2018-01-02", .missing,
          .date ⟨2020, 5, 1⟩] : List DateCell).length ∧
    invalid_dates [.str "garbage", .str "2018-01-02", .missing, .date ⟨2020, 5, 1⟩]
      = ([.str "garbage", .str "2018-01-02", .missing,
          .date ⟨2020, 5, 1⟩] : List DateCell).countP
          (fun c => decide (FailsAllPatterns c)) ∧
    toDatetimeCell (.str "garbage") = none := by
  refine ⟨?_, ?_, ?_⟩
  · exact (date_coercion_counter_exact
      [.str "garbage", .str "2018-01-02", .missing, .date ⟨2020, 5, 1⟩]).1
  · exact (date_coercion_counter_exact
      [.str "garbage", .str "2018-01-02", .missing, .date ⟨2020, 5, 1⟩]).2.1
  · exact (date_coercion_counter_exact
      [.str "garbage", .str "2018-01-02", .missing, .date ⟨2020, 5, 1⟩]).2.2
      (.str "garbage") (by decide) (by decide)

/-- C6 (code bug): the serial `"0118001"` is judged `"Valide"`, and the rest
of the repository reads its first two digits as the month and digits 3–4 as
the two-digit year (`réclamation.py` splits it into month `"01"` and year
`"18"`), so the claimed derived fabrication date is January 2018; but
`extract_manufacture_date` of `api.py` instead reads digits 1–2 as a year
offset (giving 2001) and digits 3–4 as a week number that its
`strptime("%U %Y")` call silently ignores, returning `"01/01/2001"` — not a
January-2018 date. -/
theorem extract_manufacture_date_wrong_fields :
    Lire2.valider_numero_serie "0118001" = "Valide" ∧
    Api.extract_manufacture_date "0118001" = some "01/01/2001" ∧
    renderDmy ⟨2018, 1, 1⟩ = "01/01/2018" ∧
    Api.extract_manufacture_date "0118001" ≠ some (renderDmy ⟨2018, 1, 1⟩) ∧
    Reclamation.mois "0118001" = "01" ∧
    Reclamation.annee "0118001" = "18" := by
  decide

/-! ## Lemmas about textual date parsing and rendering -/

/-- The character list underlying a structurally built string. -/
lemma string_mk_toList (cs : List Char) : (⟨cs⟩ : String).toList = cs := rfl

/-- A rendered digit is an ASCII digit. -/
lemma digitChar_isDigit {d : Nat} (h : d < 10) : (digitChar d).isDigit = true := by
  interval_cases d <;> decide

/-- Rendering then reading a digit is the identity. -/
lemma charVal_digitChar {d : Nat} (h : d < 10) : charVal (digitChar d) = d := by
  interval_cases d <;> decide

/-- A rendered digit differs from every non-digit character. -/
lemma digitChar_ne {d : Nat} {c : Char} (h : d < 10) (hc : c.isDigit = false) :
    digitChar d ≠ c := by
  intro he
  rw [← he] at hc
  rw [digitChar_isDigit h] at hc
  cases hc

/-- Characters of a two-digit rendering avoid every non-digit character. -/
lemma pad2_sepFree {n : Nat} (h : n < 100) {c : Char} (hc : c.isDigit = false) :
    ∀ x ∈ pad2 n, x ≠ c := by
  intro x hx
  simp only [pad2, List.mem_cons, List.not_mem_nil, or_false] at hx
  rcases hx with rfl | rfl
  · exact digitChar_ne (by omega) hc
  · exact digitChar_ne (by omega) hc

/-- Characters of a four-digit rendering avoid every non-digit character. -/
lemma pad4_sepFree {n : Nat} (h : n < 10000) {c : Char} (hc : c.isDigit = false) :
    ∀ x ∈ pad4 n, x ≠ c := by
  intro x hx
  simp only [pad4, List.mem_cons, List.not_mem_nil, or_false] at hx
  rcases hx with rfl | rfl | rfl | rfl
  · exact digitChar_ne (by omega) hc
  · exact digitChar_ne (by omega) hc
  · exact digitChar_ne (by omega) hc
  · exact digitChar_ne (by omega) hc

/-- Reading back a two-digit rendering recovers the number. -/
lemma parseNum_pad2 {n : Nat} (h : n < 100) : parseNum 2 (pad2 n) = some n := by
  have h1 : n / 10 < 10 := by omega
  have h2 : n % 10 < 10 := by omega
  simp only [parseNum, pad2, parseNumAux, List.foldl]
  rw [if_pos]
  · rw [charVal_digitChar h1, charVal_digitChar h2]
    congr 1
    omega
  · refine ⟨by simp, by simp, ?_⟩
    simp [digitChar_isDigit h1, digitChar_isDigit h2]

/-- Reading back a four-digit rendering recovers the number. -/
lemma parseNum_pad4 {n : Nat} (h : n < 10000) : parseNum 4 (pad4 n) = some n := by
  have h1 : n / 1000 < 10 := by omega
  have h2 : n / 100 % 10 < 10 := by omega
  have h3 : n / 10 % 10 < 10 := by omega
  have h4 : n % 10 < 10 := by omega
  simp only [parseNum, pad4, parseNumAux, List.foldl]
  rw [if_pos]
  · rw [charVal_digitChar h1, charVal_digitChar h2, charVal_digitChar h3,
      charVal_digitChar h4]
    congr 1
    omega
  · refine ⟨by simp, by simp, ?_⟩
    simp [digitChar_isDigit h1, digitChar_isDigit h2, digitChar_isDigit h3,
      digitChar_isDigit h4]

/-- Splitting a separator-free list yields that list alone. -/
lemma splitOnChar_sepFree (sep : Char) : ∀ cs : List Char, (∀ c ∈ cs, c ≠ sep) →
    splitOnChar sep cs = [cs] := by
  intro cs
  induction cs with
  | nil => intro _; rfl
  | cons a t ih =>
    intro h
    have ha : a ≠ sep := h a (List.mem_cons_self _ _)
    simp only [splitOnChar, if_neg ha]
    rw [ih (fun c hc => h c (List.mem_cons_of_mem _ hc))]

/-- Splitting past a separator-free prefix peels it off. -/
lemma splitOnChar_append (sep : Char) : ∀ xs rest : List Char, (∀ c ∈ xs, c ≠ sep) →
    splitOnChar sep (xs ++ sep :: rest) = xs :: splitOnChar sep rest := by
  intro xs
  induction xs with
  | nil =>
    intro rest _
    simp [splitOnChar]
  | cons a t ih =>
    intro rest h
    have ha : a ≠ sep := h a (List.mem_cons_self _ _)
    simp only [List.cons_append, splitOnChar, if_neg ha, List.append_eq]
    rw [ih rest (fun c hc => h c (List.mem_cons_of_mem _ hc))]

/-- Splitting a list built of two separator-free fields. -/
lemma splitOnChar_pair (sep : Char) (a b : List Char)
    (ha : ∀ c ∈ a, c ≠ sep) (hb : ∀ c ∈ b, c ≠ sep) :
    splitOnChar sep (a ++ sep :: b) = [a, b] := by
  rw [splitOnChar_append sep a b ha, splitOnChar_sepFree sep b hb]

/-- Splitting a list built of three separator-free fields. -/
lemma splitOnChar_triple (sep : Char) (a b c : List Char)
    (ha : ∀ x ∈ a, x ≠ sep) (hb : ∀ x ∈ b, x ≠ sep) (hc : ∀ x ∈ c, x ≠ sep) :
    splitOnChar sep (a ++ sep :: (b ++ sep :: c)) = [a, b, c] := by
  rw [splitOnChar_append sep a (b ++ sep :: c) ha, splitOnChar_pair sep b c hb hc]

/-- A component-wise valid date passes the constructor. -/
lemma mkDate_valid {y m d : Nat} (h : validDate ⟨y, m, d⟩ = true) :
    mkDate y m d = some ⟨y, m, d⟩ := by
  simp [mkDate, h]

/-- Every month has at most 31 days. -/
lemma daysInMonth_le_31 (y m : Nat) : daysInMonth y m ≤ 31 := by
  unfold daysInMonth
  split_ifs <;> omega

/-- Numeric bounds carried by a valid date. -/
lemma validDate_bounds {dt : PyDate} (h : validDate dt = true) :
    1 ≤ dt.year ∧ dt.year ≤ 9999 ∧ 1 ≤ dt.month ∧ dt.month ≤ 12 ∧
    1 ≤ dt.day ∧ dt.day ≤ 31 := by
  unfold validDate at h
  simp only [Bool.and_eq_true, decide_eq_true_eq] at h
  obtain ⟨⟨⟨⟨⟨h1, h2⟩, h3⟩, h4⟩, h5⟩, h6⟩ := h
  have h7 := daysInMonth_le_31 dt.year dt.month
  exact ⟨h1, h2, h3, h4, h5, by omega⟩

/-- Membership in a three-field concatenation splits into five cases. -/
lemma mem_three_cases {c : Char} {A B C : List Char} {s1 s2 : Char}
    (hc : c ∈ A ++ s1 :: (B ++ s2 :: C)) :
    c ∈ A ∨ c = s1 ∨ c ∈ B ∨ c = s2 ∨ c ∈ C := by
  simp only [List.mem_append, List.mem_cons] at hc
  tauto

/-- Reading the canonical `'%d/%m/%Y'` rendering back with the same pattern
recovers the date. -/
lemma strptimeDate_renderDmy {dt : PyDate} (h : validDate dt = true) :
    strptimeDate ⟨.dmy, '/'⟩ (renderDmy dt) = some dt := by
  obtain ⟨h1, h2, h3, h4, h5, h6⟩ := validDate_bounds h
  obtain ⟨y, m, d⟩ := dt
  dsimp only at h1 h2 h3 h4 h5 h6
  unfold strptimeDate renderDmy
  dsimp only
  rw [string_mk_toList]
  rw [splitOnChar_triple '/' (pad2 d) (pad2 m) (pad4 y)
    (pad2_sepFree (by omega) (by decide))
    (pad2_sepFree (by omega) (by decide))
    (pad4_sepFree (by omega) (by decide))]
  dsimp only
  simp only [dateOfFields]
  rw [parseNum_pad2 (by omega), parseNum_pad2 (by omega), parseNum_pad4 (by omega)]
  simp only [Option.bind_eq_bind, Option.some_bind]
  exact mkDate_valid h

/-- The character list of the canonical timestamp rendering, as a two-field
split around the blank. -/
lemma renderYmdHms_toList (t : PyDateTime) :
    (renderYmdHms t).toList
      = (pad4 t.date.year ++ '-' :: (pad2 t.date.month ++ '-' :: pad2 t.date.day))
        ++ ' ' :: (pad2 t.hour ++ ':' :: (pad2 t.minute ++ ':' :: pad2 t.second)) := by
  rfl

/-- Reading an `HH:MM:SS` rendering back recovers the time fields. -/
lemma parseHms_render {hh mm ss : Nat} (h1 : hh ≤ 23) (h2 : mm ≤ 59) (h3 : ss ≤ 59) :
    Lire2.parseHms (pad2 hh ++ ':' :: (pad2 mm ++ ':' :: pad2 ss))
      = some (hh, mm, ss) := by
  unfold Lire2.parseHms
  rw [splitOnChar_triple ':' (pad2 hh) (pad2 mm) (pad2 ss)
    (pad2_sepFree (by omega) (by decide))
    (pad2_sepFree (by omega) (by decide))
    (pad2_sepFree (by omega) (by decide))]
  dsimp only
  rw [parseNum_pad2 (by omega), parseNum_pad2 (by omega), parseNum_pad2 (by omega)]
  simp only [Option.bind_eq_bind, Option.some_bind]
  rw [if_pos ⟨h1, h2, h3⟩]

/-- Bounds carried by a valid timestamp. -/
lemma validDateTime_bounds {t : PyDateTime} (h : validDateTime t = true) :
    validDate t.date = true ∧ t.hour ≤ 23 ∧ t.minute ≤ 59 ∧ t.second ≤ 59 := by
  unfold validDateTime at h
  simp only [Bool.and_eq_true, decide_eq_true_eq] at h
  exact ⟨h.1.1.1, h.1.1.2, h.1.2, h.2⟩

/-- The date half of the canonical timestamp rendering contains no blank. -/
lemma datePart_no_space {y m d : Nat} (hy : y < 10000) (hm : m < 100) (hd : d < 100) :
    ∀ c ∈ pad4 y ++ '-' :: (pad2 m ++ '-' :: pad2 d), c ≠ ' ' := by
  intro c hc
  rcases mem_three_cases hc with h | h | h | h | h
  · exact pad4_sepFree hy (by decide) c h
  · subst h; decide
  · exact pad2_sepFree hm (by decide) c h
  · subst h; decide
  · exact pad2_sepFree hd (by decide) c h

/-- The time half of the canonical timestamp rendering contains no blank. -/
lemma timePart_no_space {hh mm ss : Nat} (h1 : hh < 100) (h2 : mm < 100) (h3 : ss < 100) :
    ∀ c ∈ pad2 hh ++ ':' :: (pad2 mm ++ ':' :: pad2 ss), c ≠ ' ' := by
  intro c hc
  rcases mem_three_cases hc with h | h | h | h | h
  · exact pad2_sepFree h1 (by decide) c h
  · subst h; decide
  · exact pad2_sepFree h2 (by decide) c h
  · subst h; decide
  · exact pad2_sepFree h3 (by decide) c h

/-- The time half of the canonical timestamp rendering contains no dot. -/
lemma timePart_no_dot {hh mm ss : Nat} (h1 : hh < 100) (h2 : mm < 100) (h3 : ss < 100) :
    ∀ c ∈ pad2 hh ++ ':' :: (pad2 mm ++ ':' :: pad2 ss), c ≠ '.' := by
  intro c hc
  rcases mem_three_cases hc with h | h | h | h | h
  · exact pad2_sepFree h1 (by decide) c h
  · subst h; decide
  · exact pad2_sepFree h2 (by decide) c h
  · subst h; decide
  · exact pad2_sepFree h3 (by decide) c h

/-- The fractional-seconds format fails on the canonical fraction-free
rendering. -/
lemma strptimeYmdHmsF_render_none {t : PyDateTime} (hv : validDateTime t = true) :
    Lire2.strptimeYmdHmsF (renderYmdHms t) = none := by
  obtain ⟨hdate, h23, h59, h59s⟩ := validDateTime_bounds hv
  obtain ⟨hy1, hy2, hm1, hm2, hd1, hd2⟩ := validDate_bounds hdate
  unfold Lire2.strptimeYmdHmsF
  rw [renderYmdHms_toList]
  rw [splitOnChar_pair ' ' _ _
    (datePart_no_space (by omega) (by omega) (by omega))
    (timePart_no_space (by omega) (by omega) (by omega))]
  dsimp only
  rw [splitOnChar_sepFree '.' _
    (timePart_no_dot (by omega) (by omega) (by omega))]

/-- The plain timestamp format reads the canonical rendering back to the very
same timestamp. -/
lemma strptimeYmdHms_render {t : PyDateTime} (hv : validDateTime t = true) :
    Lire2.strptimeYmdHms (renderYmdHms t) = some t := by
  obtain ⟨hdate, h23, h59, h59s⟩ := validDateTime_bounds hv
  obtain ⟨hy1, hy2, hm1, hm2, hd1, hd2⟩ := validDate_bounds hdate
  unfold Lire2.strptimeYmdHms
  rw [renderYmdHms_toList]
  rw [splitOnChar_pair ' ' _ _
    (datePart_no_space (by omega) (by omega) (by omega))
    (timePart_no_space (by omega) (by omega) (by omega))]
  dsimp only
  rw [splitOnChar_triple '-' (pad4 t.date.year) (pad2 t.date.month) (pad2 t.date.day)
    (pad4_sepFree (by omega) (by decide))
    (pad2_sepFree (by omega) (by decide))
    (pad2_sepFree (by omega) (by decide))]
  dsimp only
  rw [parseNum_pad4 (by omega), parseNum_pad2 (by omega), parseNum_pad2 (by omega)]
  simp only [Option.bind_eq_bind, Option.some_bind]
  have hmk : mkDate t.date.year t.date.month t.date.day = some t.date := by
    have h := mkDate_valid (y := t.date.year) (m := t.date.month) (d := t.date.day) ?_
    · exact h
    · exact hdate
  rw [hmk]
  simp only [Option.some_bind]
  rw [parseHms_render h23 h59 h59s]
  simp only [Option.some_bind]

/-- C9: normalizing the canonical timestamp form `aaaa-mm-jj hh:mm:ss`
through `convert_date_format` yields the canonical `jj/mm/aaaa` rendering of
its date, re-reading that rendering with the same canonical day-first
pattern yields the identical date, and an already-typed date cell passes the
coercion unchanged — date normalization is idempotent on canonical values. -/
theorem date_normalization_idempotent (t : PyDateTime) (h : validDateTime t = true) :
    Lire2.convert_date_format (renderYmdHms t) = some (renderDmy t.date) ∧
    strptimeDate ⟨.dmy, '/'⟩ (renderDmy t.date) = some t.date ∧
    toDatetimeCell (.date t.date) = some t.date := by
  have hdate : validDate t.date = true := (validDateTime_bounds h).1
  refine ⟨?_, strptimeDate_renderDmy hdate, rfl⟩
  unfold Lire2.convert_date_format
  rw [strptimeYmdHmsF_render_none h, strptimeYmdHms_render h]

/-- C9 witness: the idempotence theorem applied to the concrete timestamp
`2018-02-01 12:30:05`. -/
theorem date_normalization_idempotent_witness :
    validDateTime ⟨⟨2018, 2, 1⟩, 12, 30, 5⟩ = true ∧
    Lire2.convert_date_format (renderYmdHms ⟨⟨2018, 2, 1⟩, 12, 30, 5⟩)
      = some (renderDmy ⟨2018, 2, 1⟩) ∧
    strptimeDate ⟨.dmy, '/'⟩ (renderDmy ⟨2018, 2, 1⟩) = some ⟨2018, 2, 1⟩ := by
  refine ⟨by decide, ?_, ?_⟩
  · exact (date_normalization_idempotent ⟨⟨2018, 2, 1⟩, 12, 30, 5⟩ (by decide)).1
  · exact (date_normalization_idempotent ⟨⟨2018, 2, 1⟩, 12, 30, 5⟩ (by decide)).2.1
